import Mathlib

/-!
Verification development for the GameHub tic-tac-toe server (`src/server.js`).

The repository contains two variants of the server in one file:

* variant 1 ("direct pairing"): the `join-game` / `make-move` /
  `disconnect` handlers over the `games` and `players` objects
  (`server.js` lines 37-231);
* variant 2 ("rooms"): the `join-room` / `game-move` / `disconnect`
  handlers over the `rooms` and `users` maps, together with
  `updateLeaderboard` and `checkMorpionWinner`
  (`server.js` lines 275-763).

Both variants are embedded shallowly: JS objects and `Map`s become
association lists preserving insertion order (JS objects and Maps
iterate in insertion order), socket emissions become values of an event
type, and the `setTimeout` reset callback becomes an explicit state
transformer (`resetFire1` / `resetFire2`) applied when the timer fires.
-/

namespace GameHub

/-- A player mark, JS string `"X"` or `"O"`. -/
inductive Symb
  | X
  | O
deriving DecidableEq

/-- A board cell: `none` is the empty JS string `""`, `some s` a mark. -/
abbrev Cell := Option Symb

/-- A board, JS array of 9 cell strings. -/
abbrev Board := List Cell

/-- JS `Array(9).fill('')` / the literal `['','','','','','','','','']`. -/
def emptyBoard : Board := List.replicate 9 none

/-- JS `game.currentPlayer === 'X' ? 'O' : 'X'`. -/
def flipSymb : Symb → Symb
  | .X => .O
  | .O => .X

/-- JS `board[i]` where an out-of-range read gives `undefined`; both
`undefined` and `''` are falsy, collapsed here to `none`. -/
def cellAt (b : Board) (i : Nat) : Cell := b.getD i none

/-- The eight winning triples of `checkWinner` / `checkMorpionWinner`:
3 rows, 3 columns, 2 diagonals, in source order. -/
def winLines : List (Nat × Nat × Nat) :=
  [(0, 1, 2), (3, 4, 5), (6, 7, 8),
   (0, 3, 6), (1, 4, 7), (2, 5, 8),
   (0, 4, 8), (2, 4, 6)]

/-- One iteration of the loop body of `checkWinner`: the test
`board[a] && board[a] === board[b] && board[a] === board[c]`. -/
def lineWinner (b : Board) (l : Nat × Nat × Nat) : Option Symb :=
  match cellAt b l.1 with
  | none => none
  | some s =>
    if cellAt b l.2.1 = some s ∧ cellAt b l.2.2 = some s then some s else none

/-- `checkWinner(board)` (server.js 218-231): returns the symbol of the
first triple whose three cells are equal and non-empty, else `null`. -/
def checkWinner (b : Board) : Option Symb :=
  winLines.findSome? (lineWinner b)

/-- `checkMorpionWinner(board)` (server.js 700-713), textually identical
to `checkWinner`. -/
def checkMorpionWinner (b : Board) : Option Symb :=
  winLines.findSome? (lineWinner b)

/-- JS `board.every(cell => cell !== '')` on a 9-cell board. -/
def boardFull (b : Board) : Bool := b.all (·.isSome)

/-- Variant 1 `isDraw` (line 104): `!winner && board.every(c => c !== '')`. -/
def isDraw1 (b : Board) : Bool := (checkWinner b).isNone && boardFull b

/-- JS in-range-and-empty test `board[i] === ''`: true only when index
`i` exists in the 9-cell array and holds the empty string. -/
def cellFree (b : Board) (i : Nat) : Bool := b.get? i = some (none : Cell)

/-- Association-list lookup, modelling JS `obj[k]` / `map.get(k)`. -/
def lookup (l : List (String × α)) (k : String) : Option α :=
  (l.find? (fun p => p.1 == k)).map (·.2)

/-- JS `obj[k] = v` / `map.set(k, v)`: overwrite in place keeping the
entry position when the key exists, append otherwise (JS objects and
Maps keep insertion order). -/
def setKey (l : List (String × α)) (k : String) (v : α) : List (String × α) :=
  if (l.find? (fun p => p.1 == k)).isSome then
    l.map (fun p => if p.1 == k then (k, v) else p)
  else
    l ++ [(k, v)]

/-- JS `delete obj[k]` / `map.delete(k)`. -/
def eraseKey (l : List (String × α)) (k : String) : List (String × α) :=
  l.filter (fun p => !(p.1 == k))

/-- Session status, JS strings `'waiting'`, `'playing'`, `'finished'`. -/
inductive Status
  | waiting
  | playing
  | finished
deriving DecidableEq

/-- Variant 1 game object (server.js 170-178): `players` maps a socket
id to its `{ symbol }` seat record; plus board, turn and status. -/
structure Game1 where
  players : List (String × Symb)
  board : Board
  currentPlayer : Symb
  status : Status
deriving DecidableEq

/-- Variant 1 `players[socket.id]` directory record (id field is the
key itself and is omitted). -/
structure PInfo where
  name : String
  symbol : Option Symb
deriving DecidableEq

/-- Variant 1 shared state: the `players` and `games` objects. -/
structure State1 where
  players : List (String × PInfo)
  games : List (String × Game1)
deriving DecidableEq

/-- Initial variant 1 state (both objects start empty, line 38-39). -/
def init1 : State1 := { players := [], games := [] }

/-- Variant 1 socket emissions.  `errorMsg`, `notYourTurn`,
`invalidMove`, `waitingForPlayer` and `opponentLeft` are
`socket.emit` to one connection; `moveMade`, `gameStarted`, `gameReset`
are `io.to(gameId).emit` to the game's room; `scheduleReset` records
the `setTimeout(..., 3000)` call whose firing is `resetFire1`. -/
inductive Ev1
  | errorMsg (sid msg : String)
  | notYourTurn (sid : String)
  | invalidMove (sid : String)
  | moveMade (gameId : String) (cellIndex : Nat) (symbol : Symb) (board : Board)
      (currentPlayer : Symb) (winner : Option Symb) (isDraw : Bool)
  | scheduleReset (gameId : String)
  | waitingForPlayer (sid gameId : String)
  | gameStarted (gameId : String) (p1 p2 : Option String) (currentPlayer : Symb) (board : Board)
  | gameReset (gameId : String) (board : Board) (currentPlayer : Symb)
  | opponentLeft (sid : String)
deriving DecidableEq

/-- `Object.values(games).find(g => g.status === 'waiting' &&
Object.keys(g.players).length === 1)` (server.js 57-60), returned with
its key. -/
def findAvailable (games : List (String × Game1)) : Option (String × Game1) :=
  games.find? (fun p => p.2.status == Status.waiting && p.2.players.length == 1)

/-- `createNewGame(socket, playerName)` (server.js 167-189); `newId` is
the generated `'game-' + Date.now()` identifier. -/
def createNewGame (st : State1) (sid pname newId : String) : State1 × List Ev1 :=
  let g : Game1 :=
    { players := [(sid, Symb.X)], board := emptyBoard,
      currentPlayer := Symb.X, status := Status.waiting }
  ({ players := setKey st.players sid { name := pname, symbol := some Symb.X },
     games := setKey st.games newId g },
   [Ev1.waitingForPlayer sid newId])

/-- `joinExistingGame(socket, game, playerName)` (server.js 191-216).
`game.players[socket.id] = { symbol: 'O' }` overwrites the requester's
own seat when it is already present.  The `game-started` payload reads
the names of `playerIds[0]` and `playerIds[1]` from the `players`
directory; a missing second id is modelled as `none` (in JS the
`.name` access on `undefined` then throws, after all the state
mutations above it have already happened). -/
def joinExistingGame (st : State1) (gid : String) (game : Game1) (sid pname : String) :
    State1 × List Ev1 :=
  let game' :=
    { game with
      players := setKey game.players sid Symb.O
      status := Status.playing }
  let st' : State1 :=
    { players := setKey st.players sid { name := pname, symbol := some Symb.O },
      games := setKey st.games gid game' }
  let pids := game'.players.map (·.1)
  let n1 := (pids.get? 0).bind (fun i => (lookup st'.players i).map (·.name))
  let n2 := (pids.get? 1).bind (fun i => (lookup st'.players i).map (·.name))
  (st', [Ev1.gameStarted gid n1 n2 Symb.X game'.board])

/-- The `join-game` handler (server.js 45-69): record the connection in
`players`, then join the first waiting single-occupant game or create a
new one. -/
def joinGame (st : State1) (sid pname newId : String) : State1 × List Ev1 :=
  let st1 : State1 :=
    { st with players := setKey st.players sid { name := pname, symbol := none } }
  match findAvailable st1.games with
  | some (gid, game) => joinExistingGame st1 gid game sid pname
  | none => createNewGame st1 sid pname newId

/-- The accepted-move tail of the `make-move` handler (server.js
99-131): write the cell, evaluate the board, flip the turn, emit
`move-made`, and on a terminal board schedule the 3000 ms reset. -/
def applyMove1 (st : State1) (gid : String) (game : Game1) (psym : Symb)
    (cellIndex : Nat) : State1 × List Ev1 :=
  let board' := game.board.set cellIndex (some psym)
  let winner := checkWinner board'
  let draw := winner.isNone && boardFull board'
  let cur' := flipSymb game.currentPlayer
  let game' := { game with board := board', currentPlayer := cur' }
  let st' := { st with games := setKey st.games gid game' }
  let evs := [Ev1.moveMade gid cellIndex psym board' cur' winner draw]
  if winner.isSome || draw then (st', evs ++ [Ev1.scheduleReset gid]) else (st', evs)

/-- The `make-move` handler (server.js 72-132).  Checks, in order:
game exists (else `error` "Partie introuvable"), requester seated
(else `error`), requester's symbol is the current turn (else
`not-your-turn`), target cell exists and is empty (else
`invalid-move`); there is no check that the game status is
`playing`. -/
def makeMove (st : State1) (sid gid : String) (cellIndex : Nat) : State1 × List Ev1 :=
  match lookup st.games gid with
  | none => (st, [Ev1.errorMsg sid "Partie introuvable"])
  | some game =>
    match lookup game.players sid with
    | none => (st, [Ev1.errorMsg sid "Vous n etes pas dans cette partie"])
    | some psym =>
      if game.currentPlayer = psym then
        if cellFree game.board cellIndex then
          applyMove1 st gid game psym cellIndex
        else (st, [Ev1.invalidMove sid])
      else (st, [Ev1.notYourTurn sid])

/-- The `setTimeout` callback of `make-move` (server.js 121-130),
fired 3000 ms after a terminal move: if the game still exists, clear
the board and set the turn back to `'X'` (status is not touched);
otherwise do nothing. -/
def resetFire1 (st : State1) (gid : String) : State1 × List Ev1 :=
  match lookup st.games gid with
  | none => (st, [])
  | some game =>
    let game' := { game with board := emptyBoard, currentPlayer := Symb.X }
    ({ st with games := setKey st.games gid game' },
     [Ev1.gameReset gid emptyBoard Symb.X])

/-- The variant 1 `disconnect` handler (server.js 147-164): every game
seating the connection is deleted after notifying the first other
occupant with `opponent-left`; the connection is dropped from
`players`. -/
def disconnect1 (st : State1) (sid : String) : State1 × List Ev1 :=
  let evs := st.games.filterMap (fun p =>
    if (lookup p.2.players sid).isSome then
      ((p.2.players.map (·.1)).find? (fun i => !(i == sid))).map Ev1.opponentLeft
    else none)
  ({ players := eraseKey st.players sid,
     games := st.games.filter (fun p => (lookup p.2.players sid).isNone) },
   evs)

/-- Variant 2 room occupant (server.js 493-498); the `joinedAt` date is
omitted. -/
structure Player2 where
  id : String
  name : String
  symbol : Symb
deriving DecidableEq

/-- Variant 2 room (server.js 469-477); the `id` field is the map key
and the `createdAt` date is omitted. -/
structure Room where
  game : String
  players : List Player2
  status : Status
  board : Board
  currentPlayer : Symb
deriving DecidableEq

/-- The `user.stats` record (server.js 289, 324). -/
structure Stats where
  totalGames : Nat
  wins : Nat
  totalScore : Nat
  level : Nat
deriving DecidableEq

/-- Variant 2 shared state: the `rooms` and `users` maps (credential
fields of a user are out of scope and omitted; only `stats` is kept). -/
structure State2 where
  rooms : List (String × Room)
  users : List (String × Stats)
deriving DecidableEq

/-- The fresh stats record of `initializeData` / `/api/register`. -/
def stats0 : Stats := { totalGames := 0, wins := 0, totalScore := 0, level := 1 }

/-- Variant 2 initial state: empty rooms, the `admin` user installed by
`initializeData` (server.js 283-293). -/
def init2 : State2 := { rooms := [], users := [("admin", stats0)] }

/-- A published leaderboard row (server.js 298-303). -/
structure LBEntry where
  username : String
  score : Nat
  avatar : String
  level : Nat
deriving DecidableEq

/-- The `.map(user => ({...}))` projection inside `updateLeaderboard`. -/
def toLBEntry (p : String × Stats) : LBEntry :=
  { username := p.1, score := p.2.totalScore,
    avatar := (p.1.take 1).toUpper, level := p.2.level }

/-- The comparator `(a, b) => b.score - a.score`: `a` may stay before
`b` exactly when `b.score ≤ a.score` (descending order). -/
def lbGe (a b : LBEntry) : Prop := b.score ≤ a.score

instance : DecidableRel lbGe := fun a b => Nat.decLe b.score a.score

instance : IsTotal LBEntry lbGe := ⟨fun a b => Nat.le_total b.score a.score⟩

instance : IsTrans LBEntry lbGe := ⟨fun _ _ _ h1 h2 => Nat.le_trans h2 h1⟩

/-- `updateLeaderboard()` (server.js 296-308): project every user, sort
by score descending (JS `Array.prototype.sort` is stable; the stable
descending sort is embedded as Mathlib's stable `insertionSort`),
truncate to the top 10.  The result is broadcast to all connections as
`leaderboard-update` (`io.emit`). -/
def updateLeaderboard (users : List (String × Stats)) : List LBEntry :=
  ((users.map toLBEntry).insertionSort lbGe).take 10

/-- Variant 2 socket emissions.  `roomJoined`, `roomFull` and
`notYourTurn` go to the requesting connection; `playerJoined`,
`gameStart`, `gameStateUpdate`, `gameReset` and `playerLeft` go to the
room; `leaderboardUpdate` is `io.emit`, broadcast to every connection;
`scheduleReset` records the `setTimeout(..., 3000)` call whose firing
is `resetFire2`. -/
inductive Ev2
  | roomJoined (sid roomKey : String)
  | playerJoined (roomKey : String) (p : Player2)
  | gameStart (roomKey : String) (players : List Player2) (currentPlayer : Symb)
  | roomFull (sid : String)
  | notYourTurn (sid : String)
  | gameStateUpdate (roomId : String) (board : Board) (currentPlayer : Symb)
      (move : Nat) (symbol : Symb) (playerName : String) (winner : Option Symb)
      (gameOver : Bool)
  | leaderboardUpdate (entries : List LBEntry)
  | scheduleReset (roomId : String)
  | gameReset (roomId : String) (board : Board) (currentPlayer : Symb)
  | playerLeft (roomId : String) (playerName : String) (players : List Player2)
deriving DecidableEq

/-- The `/api/register` route (server.js 311-346), restricted to the
state this core owns: reject a taken username, otherwise install a
fresh stats record and recompute/broadcast the leaderboard. -/
def register (st : State2) (username : String) : State2 × List Ev2 :=
  match lookup st.users username with
  | some _ => (st, [])
  | none =>
    let users' := setKey st.users username stats0
    ({ st with users := users' }, [Ev2.leaderboardUpdate (updateLeaderboard users')])

/-- The `join-room` handler (server.js 461-531); `roomKey` is the
caller's `roomId || game + '-lobby'`.  A missing room is created
first; a connection already seated in the room is answered with
`room-joined` and nothing changes; otherwise the joiner is appended
with symbol `'X'` when the room was empty and `'O'` otherwise, and a
second occupant flips the room to `playing` and emits `game-start`. -/
def joinRoom (st : State2) (sid game pname roomKey : String) : State2 × List Ev2 :=
  let found := lookup st.rooms roomKey
  let room := found.getD
    { game := game, players := [], status := Status.waiting,
      board := emptyBoard, currentPlayer := Symb.X }
  let rooms0 := if found.isSome then st.rooms else setKey st.rooms roomKey room
  if room.players.length < 2 then
    match room.players.find? (fun p => p.id == sid) with
    | some _ => ({ st with rooms := rooms0 }, [Ev2.roomJoined sid roomKey])
    | none =>
      let p : Player2 :=
        { id := sid, name := pname,
          symbol := if room.players.length = 0 then Symb.X else Symb.O }
      let room1 := { room with players := room.players ++ [p] }
      if room1.players.length = 2 then
        let room2 := { room1 with status := Status.playing }
        ({ st with rooms := setKey rooms0 roomKey room2 },
         [Ev2.playerJoined roomKey p, Ev2.gameStart roomKey room2.players Symb.X])
      else
        ({ st with rooms := setKey rooms0 roomKey room1 },
         [Ev2.playerJoined roomKey p])
  else
    ({ st with rooms := rooms0 }, [Ev2.roomFull sid])

/-- The winner-stats block of `game-move` (server.js 573-584): when the
applied move has a winner whose seat name is a registered user, bump
wins, total score (+10) and games played, and recompute/broadcast the
leaderboard; otherwise touch nothing. -/
def winnerStats (users : List (String × Stats)) (room : Room) (winner : Option Symb) :
    List (String × Stats) × List Ev2 :=
  match winner with
  | none => (users, [])
  | some w =>
    match room.players.find? (fun p => p.symbol == w) with
    | none => (users, [])
    | some wp =>
      match lookup users wp.name with
      | none => (users, [])
      | some s =>
        let s' :=
          { s with
            wins := s.wins + 1
            totalScore := s.totalScore + 10
            totalGames := s.totalGames + 1 }
        let users' := setKey users wp.name s'
        (users', [Ev2.leaderboardUpdate (updateLeaderboard users')])

/-- The accepted-move tail of `game-move` (server.js 547-605): write
the cell, evaluate, flip the turn, emit `game-state-update`, update the
winner's stats, and on a terminal board set the room to `finished` and
schedule the 3000 ms reset. -/
def applyMove2 (st : State2) (rid : String) (room : Room) (cp : Player2) (mv : Nat) :
    State2 × List Ev2 :=
  let board' := room.board.set mv (some cp.symbol)
  let winner := checkMorpionWinner board'
  let full := boardFull board'
  let cur' := flipSymb room.currentPlayer
  let room1 := { room with board := board', currentPlayer := cur' }
  let evUpd := Ev2.gameStateUpdate rid board' cur' mv cp.symbol cp.name winner
    (winner.isSome || full)
  let us := winnerStats st.users room winner
  if winner.isSome || full then
    ({ rooms := setKey st.rooms rid { room1 with status := Status.finished },
       users := us.1 },
     evUpd :: us.2 ++ [Ev2.scheduleReset rid])
  else
    ({ rooms := setKey st.rooms rid room1, users := us.1 }, evUpd :: us.2)

/-- The `game-move` handler (server.js 534-608).  A missing room, a
room without exactly two occupants or not `playing`, and an occupied
(or out-of-range) target cell are all ignored silently; an unseated or
out-of-turn requester gets `not-your-turn`. -/
def gameMove (st : State2) (sid : String) (mv : Nat) (rid : String) : State2 × List Ev2 :=
  match lookup st.rooms rid with
  | none => (st, [])
  | some room =>
    if room.players.length = 2 ∧ room.status = Status.playing then
      match room.players.find? (fun p => p.id == sid) with
      | none => (st, [Ev2.notYourTurn sid])
      | some cp =>
        if cp.symbol = room.currentPlayer then
          if cellFree room.board mv then applyMove2 st rid room cp mv
          else (st, [])
        else (st, [Ev2.notYourTurn sid])
    else (st, [])

/-- The `setTimeout` callback of `game-move` (server.js 589-604), fired
3000 ms after a terminal move: if the room still exists, clear the
board, set the status to `playing` (unconditionally, whatever the
occupancy) and the turn to `'X'`; otherwise do nothing. -/
def resetFire2 (st : State2) (rid : String) : State2 × List Ev2 :=
  match lookup st.rooms rid with
  | none => (st, [])
  | some room =>
    let room' :=
      { room with
        board := emptyBoard
        status := Status.playing
        currentPlayer := Symb.X }
    ({ st with rooms := setKey st.rooms rid room' },
     [Ev2.gameReset rid emptyBoard Symb.X])

/-- Per-room effect of the variant 2 `disconnect` handler (server.js
665-692): remove the occupant; keep the room demoted to `waiting` with
a cleared board when someone remains, delete it when it became
empty. -/
def roomAfterLeave (sid : String) (p : String × Room) : Option (String × Room) :=
  match p.2.players.findIdx? (fun q => q.id == sid) with
  | none => some p
  | some i =>
    let players' := p.2.players.eraseIdx i
    if players'.length > 0 then
      some (p.1,
        { p.2 with
          players := players'
          board := emptyBoard
          status := Status.waiting
          currentPlayer := Symb.X })
    else none

/-- The `player-left` emission of the variant 2 `disconnect` handler,
sent only when occupants remain after the removal. -/
def leaveEvent (sid : String) (p : String × Room) : Option Ev2 :=
  match p.2.players.findIdx? (fun q => q.id == sid) with
  | none => none
  | some i =>
    let players' := p.2.players.eraseIdx i
    if players'.length > 0 then
      some (Ev2.playerLeft p.1 (((p.2.players.get? i).map (·.name)).getD "") players')
    else none

/-- The variant 2 `disconnect` handler (server.js 663-696): every room
is processed by `roomAfterLeave` / `leaveEvent` in map order. -/
def disconnect2 (st : State2) (sid : String) : State2 × List Ev2 :=
  ({ st with rooms := st.rooms.filterMap (roomAfterLeave sid) },
   st.rooms.filterMap (leaveEvent sid))

/-- The conditions under which `make-move` accepts a move: the four
checks the handler implements (session exists, requester seated, turn
matches, cell in range and empty).  There is no status check. -/
def mmAccepts (st : State1) (sid gid : String) (i : Nat) : Prop :=
  ∃ game psym, lookup st.games gid = some game
    ∧ lookup game.players sid = some psym
    ∧ game.currentPlayer = psym
    ∧ game.board.get? i = some (none : Cell)

/-- The conditions under which `game-move` accepts a move: session
exists with exactly two occupants and status `playing`, requester
seated with the current-turn symbol, cell in range and empty. -/
def gmAccepts (st : State2) (sid : String) (mv : Nat) (rid : String) : Prop :=
  ∃ room cp, lookup st.rooms rid = some room
    ∧ room.players.length = 2
    ∧ room.status = Status.playing
    ∧ room.players.find? (fun p => p.id == sid) = some cp
    ∧ cp.symbol = room.currentPlayer
    ∧ room.board.get? mv = some (none : Cell)

/-- Recognizes the `move-made` broadcast, the observable acceptance of
a `make-move` request. -/
def isMoveMade : Ev1 → Bool
  | .moveMade .. => true
  | _ => false

/-- Recognizes the `game-state-update` broadcast, the observable
acceptance of a `game-move` request. -/
def isStateUpdate : Ev2 → Bool
  | .gameStateUpdate .. => true
  | _ => false

/-- Recognizes the `leaderboard-update` broadcast. -/
def isLBUpdate : Ev2 → Bool
  | .leaderboardUpdate _ => true
  | _ => false

/-- One observable event-handler step of the rooms variant. -/
inductive Step2 : State2 → State2 → Prop
  | join (st : State2) (sid game pname roomKey : String) :
      Step2 st (joinRoom st sid game pname roomKey).1
  | move (st : State2) (sid : String) (mv : Nat) (rid : String) :
      Step2 st (gameMove st sid mv rid).1
  | reset (st : State2) (rid : String) : Step2 st (resetFire2 st rid).1
  | leave (st : State2) (sid : String) : Step2 st (disconnect2 st sid).1
  | reg (st : State2) (u : String) : Step2 st (register st u).1

/-- Rooms-variant states reachable from the initial state by handler
steps. -/
inductive Reachable2 : State2 → Prop
  | init : Reachable2 init2
  | step {st st' : State2} : Reachable2 st → Step2 st st' → Reachable2 st'

/-- Every room's occupants carry pairwise distinct connection ids. -/
def roomIdsOk (st : State2) : Prop :=
  ∀ p ∈ st.rooms, p.2.players.Pairwise (fun a b => a.id ≠ b.id)

/-- Concrete scenario fixture: a mid-game room one move from an X win,
seat X held by connection "a" (name `n1`), seat O by "b" (name `n2`). -/
def nearWinRoom (n1 n2 : String) : Room where
  game := "morpion"
  players := [{ id := "a", name := n1, symbol := Symb.X },
              { id := "b", name := n2, symbol := Symb.O }]
  status := Status.playing
  board := [some Symb.X, some Symb.X, none, some Symb.O, some Symb.O,
    none, none, none, none]
  currentPlayer := Symb.X

/-- Concrete scenario fixture: a state holding one `nearWinRoom` under
key "r" over the given users store. -/
def nearWinState (n1 n2 : String) (users : List (String × Stats)) : State2 :=
  { rooms := [("r", nearWinRoom n1 n2)], users := users }

/-! ### Association-list lemmas -/

theorem lookup_cons (k' : String) (v : α) (l : List (String × α)) (k : String) :
    lookup ((k', v) :: l) k = if k' = k then some v else lookup l k := by
  by_cases h : k' = k
  · simp [lookup, List.find?_cons_of_pos, h]
  · rw [if_neg h]
    have hne : ¬ (((k', v) : String × α).1 == k) = true := by simp [h]
    unfold lookup
    rw [@List.find?_cons_of_neg (String × α) (fun p => p.1 == k) (k', v) l hne]

theorem lookup_mem {l : List (String × α)} {k : String} {v : α}
    (h : lookup l k = some v) : (k, v) ∈ l := by
  unfold lookup at h
  obtain ⟨p, hfind, hv⟩ := Option.map_eq_some'.mp h
  have hmem := List.mem_of_find?_eq_some hfind
  have hk := List.find?_some hfind
  simp only [beq_iff_eq] at hk
  have : p = (k, v) := by
    cases p
    simp_all
  rwa [this] at hmem

theorem lookup_replaceAll (l : List (String × α)) (k : String) (v : α) :
    lookup (l.map (fun p => if p.1 == k then (k, v) else p)) k
      = (lookup l k).map (fun _ => v) := by
  induction l with
  | nil => rfl
  | cons hd tl ih =>
    by_cases h : hd.1 = k
    · cases hd
      simp_all [lookup_cons]
    · cases hd
      simp only at h
      simp_all [lookup_cons, h]

theorem lookup_append (l m : List (String × α)) (k : String) :
    lookup (l ++ m) k = match lookup l k with
      | some v => some v
      | none => lookup m k := by
  induction l with
  | nil => rfl
  | cons hd tl ih =>
    cases hd with
    | mk kh vh =>
      by_cases h : kh = k
      · simp [lookup_cons, h]
      · simp [lookup_cons, h, ih]

theorem find?_isSome_eq (l : List (String × α)) (k : String) :
    (l.find? (fun p => p.1 == k)).isSome = (lookup l k).isSome := by
  simp [lookup]

theorem lookup_setKey_self (l : List (String × α)) (k : String) (v : α) :
    lookup (setKey l k v) k = some v := by
  unfold setKey
  by_cases h : (l.find? (fun p => p.1 == k)).isSome
  · rw [if_pos h, lookup_replaceAll]
    rw [find?_isSome_eq] at h
    obtain ⟨w, hw⟩ := Option.isSome_iff_exists.mp h
    simp [hw]
  · rw [if_neg h, lookup_append]
    rw [find?_isSome_eq] at h
    have : lookup l k = none := by
      cases hl : lookup l k
      · rfl
      · rw [hl] at h
        simp at h
    simp [this, lookup_cons]

theorem lookup_replaceAll_ne (l : List (String × α)) (k : String) (v : α)
    {k' : String} (h : k' ≠ k) :
    lookup (l.map (fun p => if p.1 == k then (k, v) else p)) k' = lookup l k' := by
  induction l with
  | nil => rfl
  | cons hd tl ih =>
    cases hd with
    | mk kh vh =>
      simp only [List.map_cons]
      by_cases hk : kh = k
      · subst hk
        rw [show (if ((kh, vh) : String × α).1 == kh then (kh, v) else (kh, vh))
              = (kh, v) by simp]
        rw [lookup_cons, lookup_cons, if_neg (Ne.symm h), if_neg (Ne.symm h)]
        exact ih
      · rw [show (if ((kh, vh) : String × α).1 == k then (k, v) else (kh, vh))
              = (kh, vh) by simp [hk]]
        rw [lookup_cons, lookup_cons]
        by_cases hk' : kh = k'
        · rw [if_pos hk', if_pos hk']
        · rw [if_neg hk', if_neg hk']
          exact ih

theorem lookup_setKey_ne (l : List (String × α)) (k : String) (v : α)
    {k' : String} (h : k' ≠ k) : lookup (setKey l k v) k' = lookup l k' := by
  unfold setKey
  by_cases hc : (l.find? (fun p => p.1 == k)).isSome
  · rw [if_pos hc]
    exact lookup_replaceAll_ne l k v h
  · rw [if_neg hc, lookup_append]
    cases hl : lookup l k'
    · rw [lookup_cons, if_neg (Ne.symm h)]
      rfl
    · rfl

theorem mem_setKey {l : List (String × α)} {k : String} {v : α} {q : String × α}
    (h : q ∈ setKey l k v) : q ∈ l ∨ q = (k, v) := by
  unfold setKey at h
  by_cases hc : (l.find? (fun p => p.1 == k)).isSome
  · rw [if_pos hc] at h
    obtain ⟨p, hp, hq⟩ := List.mem_map.mp h
    by_cases hk : p.1 = k
    · right
      simp [hk] at hq
      exact hq.symm
    · left
      simp [hk] at hq
      rwa [← hq]
  · rw [if_neg hc] at h
    rcases List.mem_append.mp h with h1 | h1
    · exact Or.inl h1
    · right
      simpa using h1

/-! ### Branch lemmas for the variant 1 handlers -/

theorem makeMove_no_game {st : State1} {sid gid : String} {i : Nat}
    (h : lookup st.games gid = none) :
    makeMove st sid gid i = (st, [Ev1.errorMsg sid "Partie introuvable"]) := by
  unfold makeMove
  rw [h]

theorem makeMove_not_seated {st : State1} {sid gid : String} {i : Nat} {game : Game1}
    (h1 : lookup st.games gid = some game) (h2 : lookup game.players sid = none) :
    makeMove st sid gid i = (st, [Ev1.errorMsg sid "Vous n etes pas dans cette partie"]) := by
  simp only [makeMove, h1, h2]

theorem makeMove_wrong_turn {st : State1} {sid gid : String} {i : Nat} {game : Game1}
    {psym : Symb} (h1 : lookup st.games gid = some game)
    (h2 : lookup game.players sid = some psym) (h3 : game.currentPlayer ≠ psym) :
    makeMove st sid gid i = (st, [Ev1.notYourTurn sid]) := by
  simp only [makeMove, h1, h2]
  rw [if_neg h3]

theorem makeMove_occupied {st : State1} {sid gid : String} {i : Nat} {game : Game1}
    {psym : Symb} (h1 : lookup st.games gid = some game)
    (h2 : lookup game.players sid = some psym) (h3 : game.currentPlayer = psym)
    (h4 : ¬ cellFree game.board i) :
    makeMove st sid gid i = (st, [Ev1.invalidMove sid]) := by
  simp only [makeMove, h1, h2]
  rw [if_pos h3, if_neg h4]

theorem makeMove_accept {st : State1} {sid gid : String} {i : Nat} {game : Game1}
    {psym : Symb} (h1 : lookup st.games gid = some game)
    (h2 : lookup game.players sid = some psym) (h3 : game.currentPlayer = psym)
    (h4 : cellFree game.board i) :
    makeMove st sid gid i = applyMove1 st gid game psym i := by
  simp only [makeMove, h1, h2]
  rw [if_pos h3, if_pos h4]

/-! ### Branch lemmas for the variant 2 handlers -/

theorem gameMove_no_room {st : State2} {sid rid : String} {mv : Nat}
    (h : lookup st.rooms rid = none) : gameMove st sid mv rid = (st, []) := by
  unfold gameMove
  rw [h]

theorem gameMove_not_ready {st : State2} {sid rid : String} {mv : Nat} {room : Room}
    (h1 : lookup st.rooms rid = some room)
    (h2 : ¬ (room.players.length = 2 ∧ room.status = Status.playing)) :
    gameMove st sid mv rid = (st, []) := by
  simp only [gameMove, h1]
  rw [if_neg h2]

theorem gameMove_not_seated {st : State2} {sid rid : String} {mv : Nat} {room : Room}
    (h1 : lookup st.rooms rid = some room)
    (h2 : room.players.length = 2 ∧ room.status = Status.playing)
    (h3 : room.players.find? (fun p => p.id == sid) = none) :
    gameMove st sid mv rid = (st, [Ev2.notYourTurn sid]) := by
  simp only [gameMove, h1, h3]
  rw [if_pos h2]

theorem gameMove_wrong_turn {st : State2} {sid rid : String} {mv : Nat} {room : Room}
    {cp : Player2} (h1 : lookup st.rooms rid = some room)
    (h2 : room.players.length = 2 ∧ room.status = Status.playing)
    (h3 : room.players.find? (fun p => p.id == sid) = some cp)
    (h4 : cp.symbol ≠ room.currentPlayer) :
    gameMove st sid mv rid = (st, [Ev2.notYourTurn sid]) := by
  simp only [gameMove, h1, h3]
  rw [if_pos h2, if_neg h4]

theorem gameMove_occupied {st : State2} {sid rid : String} {mv : Nat} {room : Room}
    {cp : Player2} (h1 : lookup st.rooms rid = some room)
    (h2 : room.players.length = 2 ∧ room.status = Status.playing)
    (h3 : room.players.find? (fun p => p.id == sid) = some cp)
    (h4 : cp.symbol = room.currentPlayer) (h5 : ¬ cellFree room.board mv) :
    gameMove st sid mv rid = (st, []) := by
  simp only [gameMove, h1, h3]
  rw [if_pos h2, if_pos h4, if_neg h5]

theorem gameMove_accept {st : State2} {sid rid : String} {mv : Nat} {room : Room}
    {cp : Player2} (h1 : lookup st.rooms rid = some room)
    (h2 : room.players.length = 2 ∧ room.status = Status.playing)
    (h3 : room.players.find? (fun p => p.id == sid) = some cp)
    (h4 : cp.symbol = room.currentPlayer) (h5 : cellFree room.board mv) :
    gameMove st sid mv rid = applyMove2 st rid room cp mv := by
  simp only [gameMove, h1, h3]
  rw [if_pos h2, if_pos h4, if_pos h5]

theorem resetFire1_none {st : State1} {gid : String}
    (h : lookup st.games gid = none) : resetFire1 st gid = (st, []) := by
  unfold resetFire1
  rw [h]

theorem resetFire1_some {st : State1} {gid : String} {game : Game1}
    (h : lookup st.games gid = some game) :
    resetFire1 st gid =
      ({ st with games := setKey st.games gid { game with board := emptyBoard, currentPlayer := Symb.X } },
       [Ev1.gameReset gid emptyBoard Symb.X]) := by
  unfold resetFire1
  rw [h]

theorem resetFire2_none {st : State2} {rid : String}
    (h : lookup st.rooms rid = none) : resetFire2 st rid = (st, []) := by
  unfold resetFire2
  rw [h]

theorem resetFire2_some {st : State2} {rid : String} {room : Room}
    (h : lookup st.rooms rid = some room) :
    resetFire2 st rid =
      ({ st with rooms := setKey st.rooms rid { room with board := emptyBoard, status := Status.playing, currentPlayer := Symb.X } },
       [Ev2.gameReset rid emptyBoard Symb.X]) := by
  unfold resetFire2
  rw [h]

theorem winnerStats_none {users : List (String × Stats)} {room : Room} :
    winnerStats users room none = (users, []) := rfl

theorem winnerStats_no_seat {users : List (String × Stats)} {room : Room} {w : Symb}
    (h : room.players.find? (fun p => p.symbol == w) = none) :
    winnerStats users room (some w) = (users, []) := by
  simp only [winnerStats, h]

theorem winnerStats_unregistered {users : List (String × Stats)} {room : Room} {w : Symb}
    {wp : Player2} (h1 : room.players.find? (fun p => p.symbol == w) = some wp)
    (h2 : lookup users wp.name = none) :
    winnerStats users room (some w) = (users, []) := by
  simp only [winnerStats, h1, h2]

theorem winnerStats_registered {users : List (String × Stats)} {room : Room} {w : Symb}
    {wp : Player2} {s : Stats}
    (h1 : room.players.find? (fun p => p.symbol == w) = some wp)
    (h2 : lookup users wp.name = some s) :
    winnerStats users room (some w) =
      (setKey users wp.name
        { s with wins := s.wins + 1, totalScore := s.totalScore + 10,
                 totalGames := s.totalGames + 1 },
       [Ev2.leaderboardUpdate (updateLeaderboard (setKey users wp.name
        { s with wins := s.wins + 1, totalScore := s.totalScore + 10,
                 totalGames := s.totalGames + 1 }))]) := by
  simp only [winnerStats, h1, h2]

theorem applyMove2_users {st : State2} {rid : String} {room : Room} {cp : Player2}
    {mv : Nat} :
    (applyMove2 st rid room cp mv).1.users =
      (winnerStats st.users room (checkMorpionWinner (room.board.set mv (some cp.symbol)))).1 := by
  by_cases h : ((checkMorpionWinner (room.board.set mv (some cp.symbol))).isSome
      || boardFull (room.board.set mv (some cp.symbol))) = true
  · simp [applyMove2, h]
  · simp [applyMove2, h]

theorem applyMove2_events {st : State2} {rid : String} {room : Room} {cp : Player2}
    {mv : Nat} :
    (applyMove2 st rid room cp mv).2 =
      Ev2.gameStateUpdate rid (room.board.set mv (some cp.symbol))
          (flipSymb room.currentPlayer) mv cp.symbol cp.name
          (checkMorpionWinner (room.board.set mv (some cp.symbol)))
          ((checkMorpionWinner (room.board.set mv (some cp.symbol))).isSome
            || boardFull (room.board.set mv (some cp.symbol)))
        :: (winnerStats st.users room
             (checkMorpionWinner (room.board.set mv (some cp.symbol)))).2
        ++ (if (checkMorpionWinner (room.board.set mv (some cp.symbol))).isSome
              || boardFull (room.board.set mv (some cp.symbol))
            then [Ev2.scheduleReset rid] else []) := by
  by_cases h : ((checkMorpionWinner (room.board.set mv (some cp.symbol))).isSome
      || boardFull (room.board.set mv (some cp.symbol))) = true
  · simp [applyMove2, h]
  · simp [applyMove2, h]

/-! ### Board engine lemmas -/

theorem lineWinner_eq_some {b : Board} {l : Nat × Nat × Nat} {s : Symb} :
    lineWinner b l = some s ↔
      cellAt b l.1 = some s ∧ cellAt b l.2.1 = some s ∧ cellAt b l.2.2 = some s := by
  unfold lineWinner
  cases hc : cellAt b l.1 with
  | none => simp
  | some t =>
    dsimp only
    by_cases hands : cellAt b l.2.1 = some t ∧ cellAt b l.2.2 = some t
    · rw [if_pos hands]
      constructor
      · intro h
        obtain rfl := Option.some.inj h
        exact ⟨rfl, hands⟩
      · rintro ⟨h1, -, -⟩
        exact h1
    · rw [if_neg hands]
      constructor
      · intro h
        exact Option.noConfusion h
      · rintro ⟨h1, h2, h3⟩
        obtain rfl := Option.some.inj h1
        exact absurd ⟨h2, h3⟩ hands

theorem checkWinner_sound {b : Board} {s : Symb} (h : checkWinner b = some s) :
    ∃ l ∈ winLines, cellAt b l.1 = some s ∧ cellAt b l.2.1 = some s ∧ cellAt b l.2.2 = some s := by
  obtain ⟨l, hl, hf⟩ := List.exists_of_findSome?_eq_some h
  exact ⟨l, hl, lineWinner_eq_some.mp hf⟩

theorem checkWinner_complete {b : Board} {l : Nat × Nat × Nat} {s : Symb}
    (hl : l ∈ winLines) (h1 : cellAt b l.1 = some s) (h2 : cellAt b l.2.1 = some s)
    (h3 : cellAt b l.2.2 = some s) : (checkWinner b).isSome := by
  cases hw : checkWinner b with
  | some t => rfl
  | none =>
    have hnone := List.findSome?_eq_none_iff.mp hw l hl
    rw [lineWinner_eq_some.mpr ⟨h1, h2, h3⟩] at hnone
    exact Option.noConfusion hnone

/-- C2 (amended): the board evaluation returns a winner iff one of the
eight fixed triples has its three cells equal and non-empty, and any
returned winner is the symbol of such a triple (the first in scan
order, so a board carrying monochromatic triples of both symbols
reports only the first); `checkMorpionWinner` agrees with
`checkWinner`; the `game-move` fullness flag (`boardFull`) is true iff
no cell of the board is empty; the flag computed alongside the winner
in `make-move` is a draw flag (no winner and full), not a pure
fullness flag. -/
theorem C2_theorem :
    (∀ (b : Board) (s : Symb), checkWinner b = some s →
      ∃ l ∈ winLines, cellAt b l.1 = some s ∧ cellAt b l.2.1 = some s ∧ cellAt b l.2.2 = some s)
    ∧ (∀ (b : Board) (l : Nat × Nat × Nat) (s : Symb), l ∈ winLines →
        cellAt b l.1 = some s → cellAt b l.2.1 = some s → cellAt b l.2.2 = some s →
        (checkWinner b).isSome)
    ∧ (∀ b : Board, checkMorpionWinner b = checkWinner b)
    ∧ (∀ b : Board, boardFull b = true ↔ ∀ c ∈ b, c ≠ none)
    ∧ (∀ b : Board, isDraw1 b = true ↔ (checkWinner b = none ∧ ∀ c ∈ b, c ≠ none)) := by
  refine ⟨fun b s h => checkWinner_sound h,
          fun b l s hl h1 h2 h3 => checkWinner_complete hl h1 h2 h3,
          fun b => rfl, fun b => ?_, fun b => ?_⟩
  · simp [boardFull, List.all_eq_true, Option.isSome_iff_ne_none]
  · simp [isDraw1, boardFull, List.all_eq_true, Option.isNone_iff_eq_none,
      Option.isSome_iff_ne_none]

/-- Witness for C2: on the board with X on the whole first row, the
amended theorem yields a monochromatic winning triple. -/
theorem C2_witness :
    ∃ l ∈ winLines,
      cellAt [some Symb.X, some Symb.X, some Symb.X, none, none, none, none, none, none] l.1
          = some Symb.X
      ∧ cellAt [some Symb.X, some Symb.X, some Symb.X, none, none, none, none, none, none] l.2.1
          = some Symb.X
      ∧ cellAt [some Symb.X, some Symb.X, some Symb.X, none, none, none, none, none, none] l.2.2
          = some Symb.X :=
  C2_theorem.1 [some Symb.X, some Symb.X, some Symb.X, none, none, none, none, none, none]
    Symb.X (by decide)

/-- Counterexample refuting C2 as stated: on the 9-cell board
X X X / O O O / _ _ _ the triple (3,4,5) is monochromatic `O`, yet the
evaluation returns winner `X` (the first triple in scan order), not
`O`; and on the full board X X X / O O X / O X O the flag computed
alongside the winner in `make-move` (`isDraw`) is `false` although no
cell of the board is empty, so it is not a fullness flag. -/
theorem C2_counterexample :
    checkWinner [some Symb.X, some Symb.X, some Symb.X,
        some Symb.O, some Symb.O, some Symb.O, none, none, none] = some Symb.X
    ∧ (3, 4, 5) ∈ winLines
    ∧ cellAt [some Symb.X, some Symb.X, some Symb.X,
        some Symb.O, some Symb.O, some Symb.O, none, none, none] 3 = some Symb.O
    ∧ cellAt [some Symb.X, some Symb.X, some Symb.X,
        some Symb.O, some Symb.O, some Symb.O, none, none, none] 4 = some Symb.O
    ∧ cellAt [some Symb.X, some Symb.X, some Symb.X,
        some Symb.O, some Symb.O, some Symb.O, none, none, none] 5 = some Symb.O
    ∧ some Symb.X ≠ some Symb.O
    ∧ boardFull [some Symb.X, some Symb.X, some Symb.X,
        some Symb.O, some Symb.O, some Symb.X, some Symb.O, some Symb.X, some Symb.O] = true
    ∧ isDraw1 [some Symb.X, some Symb.X, some Symb.X,
        some Symb.O, some Symb.O, some Symb.X, some Symb.O, some Symb.X, some Symb.O] = false := by
  decide

/-! ### Move acceptance characterizations -/

theorem cellFree_iff {b : Board} {i : Nat} :
    cellFree b i = true ↔ b.get? i = some (none : Cell) := by
  simp [cellFree]

theorem applyMove1_events {st : State1} {gid : String} {game : Game1} {psym : Symb}
    {i : Nat} :
    (applyMove1 st gid game psym i).2 =
      Ev1.moveMade gid i psym (game.board.set i (some psym))
          (flipSymb game.currentPlayer) (checkWinner (game.board.set i (some psym)))
          ((checkWinner (game.board.set i (some psym))).isNone
            && boardFull (game.board.set i (some psym)))
        :: (if (checkWinner (game.board.set i (some psym))).isSome
              || ((checkWinner (game.board.set i (some psym))).isNone
                   && boardFull (game.board.set i (some psym)))
            then [Ev1.scheduleReset gid] else []) := by
  by_cases h : ((checkWinner (game.board.set i (some psym))).isSome
      || ((checkWinner (game.board.set i (some psym))).isNone
           && boardFull (game.board.set i (some psym)))) = true
  · simp [applyMove1, h]
  · simp [applyMove1, h]

theorem mm_events_iff (st : State1) (sid gid : String) (i : Nat) :
    (∃ e ∈ (makeMove st sid gid i).2, isMoveMade e = true) ↔ mmAccepts st sid gid i := by
  constructor
  · rintro ⟨e, he, hm⟩
    cases hg : lookup st.games gid with
    | none =>
      rw [makeMove_no_game hg] at he
      simp only [List.mem_singleton] at he
      subst he
      simp [isMoveMade] at hm
    | some game =>
      cases hp : lookup game.players sid with
      | none =>
        rw [makeMove_not_seated hg hp] at he
        simp only [List.mem_singleton] at he
        subst he
        simp [isMoveMade] at hm
      | some psym =>
        by_cases ht : game.currentPlayer = psym
        · by_cases hf : cellFree game.board i
          · exact ⟨game, psym, hg, hp, ht, cellFree_iff.mp hf⟩
          · rw [makeMove_occupied hg hp ht hf] at he
            simp only [List.mem_singleton] at he
            subst he
            simp [isMoveMade] at hm
        · rw [makeMove_wrong_turn hg hp ht] at he
          simp only [List.mem_singleton] at he
          subst he
          simp [isMoveMade] at hm
  · rintro ⟨game, psym, hg, hp, ht, hc⟩
    rw [makeMove_accept hg hp ht (cellFree_iff.mpr hc), applyMove1_events]
    exact ⟨_, List.mem_cons_self _ _, rfl⟩

theorem gm_events_iff (st : State2) (sid : String) (mv : Nat) (rid : String) :
    (∃ e ∈ (gameMove st sid mv rid).2, isStateUpdate e = true) ↔ gmAccepts st sid mv rid := by
  constructor
  · rintro ⟨e, he, hm⟩
    cases hg : lookup st.rooms rid with
    | none =>
      rw [gameMove_no_room hg] at he
      simp at he
    | some room =>
      by_cases hr : room.players.length = 2 ∧ room.status = Status.playing
      · cases hp : room.players.find? (fun p => p.id == sid) with
        | none =>
          rw [gameMove_not_seated hg hr hp] at he
          simp only [List.mem_singleton] at he
          subst he
          simp [isStateUpdate] at hm
        | some cp =>
          by_cases ht : cp.symbol = room.currentPlayer
          · by_cases hf : cellFree room.board mv
            · exact ⟨room, cp, hg, hr.1, hr.2, hp, ht, cellFree_iff.mp hf⟩
            · rw [gameMove_occupied hg hr hp ht hf] at he
              simp at he
          · rw [gameMove_wrong_turn hg hr hp ht] at he
            simp only [List.mem_singleton] at he
            subst he
            simp [isStateUpdate] at hm
      · rw [gameMove_not_ready hg hr] at he
        simp at he
  · rintro ⟨room, cp, hg, hlen, hst, hp, ht, hc⟩
    rw [gameMove_accept hg ⟨hlen, hst⟩ hp ht (cellFree_iff.mpr hc), applyMove2_events]
    exact ⟨_, List.mem_cons_self _ _, rfl⟩

/-- C1 (amended): in the `make-move` handler a move is accepted iff the
four checks it implements pass (session exists, requesting connection
occupies a seat, the seat's symbol equals the current-turn symbol,
target cell in range and empty) — there is no status-is-playing check —
and each isolated violation yields, respectively, an `error` emission
(Partie introuvable), an `error` emission (not a participant),
`not-your-turn`, `invalid-move`, each reported only to the requester.
In the `game-move` handler a move is accepted iff the session exists
with exactly two occupants and status `playing`, the requester is
seated with the current-turn symbol, and the cell is in range and
empty; a missing session, wrong occupancy/status, or an occupied cell
is rejected silently (no event at all), while an unseated or
out-of-turn requester receives `not-your-turn`. -/
theorem C1_theorem :
    (∀ (st : State1) (sid gid : String) (i : Nat),
      (∃ e ∈ (makeMove st sid gid i).2, isMoveMade e = true) ↔ mmAccepts st sid gid i)
    ∧ (∀ (st : State1) (sid gid : String) (i : Nat), lookup st.games gid = none →
        makeMove st sid gid i = (st, [Ev1.errorMsg sid "Partie introuvable"]))
    ∧ (∀ (st : State1) (sid gid : String) (i : Nat) (game : Game1),
        lookup st.games gid = some game → lookup game.players sid = none →
        makeMove st sid gid i = (st, [Ev1.errorMsg sid "Vous n etes pas dans cette partie"]))
    ∧ (∀ (st : State1) (sid gid : String) (i : Nat) (game : Game1) (psym : Symb),
        lookup st.games gid = some game → lookup game.players sid = some psym →
        game.currentPlayer ≠ psym → makeMove st sid gid i = (st, [Ev1.notYourTurn sid]))
    ∧ (∀ (st : State1) (sid gid : String) (i : Nat) (game : Game1) (psym : Symb),
        lookup st.games gid = some game → lookup game.players sid = some psym →
        game.currentPlayer = psym → ¬ cellFree game.board i →
        makeMove st sid gid i = (st, [Ev1.invalidMove sid]))
    ∧ (∀ (st : State2) (sid : String) (mv : Nat) (rid : String),
        (∃ e ∈ (gameMove st sid mv rid).2, isStateUpdate e = true) ↔ gmAccepts st sid mv rid)
    ∧ (∀ (st : State2) (sid : String) (mv : Nat) (rid : String),
        lookup st.rooms rid = none → gameMove st sid mv rid = (st, []))
    ∧ (∀ (st : State2) (sid : String) (mv : Nat) (rid : String) (room : Room),
        lookup st.rooms rid = some room →
        ¬ (room.players.length = 2 ∧ room.status = Status.playing) →
        gameMove st sid mv rid = (st, []))
    ∧ (∀ (st : State2) (sid : String) (mv : Nat) (rid : String) (room : Room),
        lookup st.rooms rid = some room →
        room.players.length = 2 ∧ room.status = Status.playing →
        room.players.find? (fun p => p.id == sid) = none →
        gameMove st sid mv rid = (st, [Ev2.notYourTurn sid]))
    ∧ (∀ (st : State2) (sid : String) (mv : Nat) (rid : String) (room : Room) (cp : Player2),
        lookup st.rooms rid = some room →
        room.players.length = 2 ∧ room.status = Status.playing →
        room.players.find? (fun p => p.id == sid) = some cp →
        cp.symbol ≠ room.currentPlayer →
        gameMove st sid mv rid = (st, [Ev2.notYourTurn sid]))
    ∧ (∀ (st : State2) (sid : String) (mv : Nat) (rid : String) (room : Room) (cp : Player2),
        lookup st.rooms rid = some room →
        room.players.length = 2 ∧ room.status = Status.playing →
        room.players.find? (fun p => p.id == sid) = some cp →
        cp.symbol = room.currentPlayer → ¬ cellFree room.board mv →
        gameMove st sid mv rid = (st, [])) :=
  ⟨mm_events_iff,
   fun _ _ _ _ h => makeMove_no_game h,
   fun _ _ _ _ _ h1 h2 => makeMove_not_seated h1 h2,
   fun _ _ _ _ _ _ h1 h2 h3 => makeMove_wrong_turn h1 h2 h3,
   fun _ _ _ _ _ _ h1 h2 h3 h4 => makeMove_occupied h1 h2 h3 h4,
   gm_events_iff,
   fun _ _ _ _ h => gameMove_no_room h,
   fun _ _ _ _ _ h1 h2 => gameMove_not_ready h1 h2,
   fun _ _ _ _ _ h1 h2 h3 => gameMove_not_seated h1 h2 h3,
   fun _ _ _ _ _ _ h1 h2 h3 h4 => gameMove_wrong_turn h1 h2 h3 h4,
   fun _ _ _ _ _ _ h1 h2 h3 h4 h5 => gameMove_occupied h1 h2 h3 h4 h5⟩

/-- Witness for C1: a move against a nonexistent game id draws the
`error` (Partie introuvable) emission in the direct variant. -/
theorem C1_witness :
    makeMove init1 "a" "g" 0 = (init1, [Ev1.errorMsg "a" "Partie introuvable"]) :=
  C1_theorem.2.1 init1 "a" "g" 0 (by decide)

/-- Counterexample refuting C1 as stated: after a single `join-game`
the session "g1" has status `waiting` (not `playing`), yet a move by
its sole occupant is accepted — `move-made` is broadcast and the board
is mutated — although validation check 3 (status must be `playing`,
else `NotReady`) fails; and in the rooms variant a move against a
nonexistent session id produces no `SessionNotFound` error signal (no
event at all). -/
theorem C1_counterexample :
    (lookup (joinGame init1 "a" "Al" "g1").1.games "g1").map (·.status)
        = some Status.waiting
    ∧ (∃ e ∈ (makeMove (joinGame init1 "a" "Al" "g1").1 "a" "g1" 0).2, isMoveMade e = true)
    ∧ (lookup (makeMove (joinGame init1 "a" "Al" "g1").1 "a" "g1" 0).1.games "g1").map (·.board)
        = some (emptyBoard.set 0 (some Symb.X))
    ∧ gameMove init2 "a" 0 "nope" = (init2, []) := by
  decide

/-- C6 (confirmed): a move request that fails validation leaves the
whole shared state (hence every session's board, current-turn symbol,
status and seats) completely unchanged, in both move handlers: all
validation is performed before any mutation. -/
theorem C6_theorem :
    (∀ (st : State1) (sid gid : String) (i : Nat),
      ¬ mmAccepts st sid gid i → (makeMove st sid gid i).1 = st)
    ∧ (∀ (st : State2) (sid : String) (mv : Nat) (rid : String),
      ¬ gmAccepts st sid mv rid → (gameMove st sid mv rid).1 = st) := by
  constructor
  · intro st sid gid i h
    cases hg : lookup st.games gid with
    | none => rw [makeMove_no_game hg]
    | some game =>
      cases hp : lookup game.players sid with
      | none => rw [makeMove_not_seated hg hp]
      | some psym =>
        by_cases ht : game.currentPlayer = psym
        · by_cases hf : cellFree game.board i
          · exact absurd ⟨game, psym, hg, hp, ht, cellFree_iff.mp hf⟩ h
          · rw [makeMove_occupied hg hp ht hf]
        · rw [makeMove_wrong_turn hg hp ht]
  · intro st sid mv rid h
    cases hg : lookup st.rooms rid with
    | none => rw [gameMove_no_room hg]
    | some room =>
      by_cases hr : room.players.length = 2 ∧ room.status = Status.playing
      · cases hp : room.players.find? (fun p => p.id == sid) with
        | none => rw [gameMove_not_seated hg hr hp]
        | some cp =>
          by_cases ht : cp.symbol = room.currentPlayer
          · by_cases hf : cellFree room.board mv
            · exact absurd ⟨room, cp, hg, hr.1, hr.2, hp, ht, cellFree_iff.mp hf⟩ h
            · rw [gameMove_occupied hg hr hp ht hf]
          · rw [gameMove_wrong_turn hg hr hp ht]
      · rw [gameMove_not_ready hg hr]

/-- Witness for C6: a rejected move (nonexistent game) leaves the state
untouched. -/
theorem C6_witness : (makeMove init1 "a" "g" 0).1 = init1 :=
  C6_theorem.1 init1 "a" "g" 0 (by
    rintro ⟨game, psym, h, -⟩
    simp [init1, lookup] at h)

/-- C3 (amended): when the 3000 ms reset timer fires, if the session
still exists, the reset clears the board to all-empty, sets the
current turn back to symbol X and leaves the seats unchanged; in the
rooms variant the status is set to `playing` unconditionally, even when
an occupant left during the delay (the session does not stay
`waiting`); and the reset never mutates anything for a session that was
destroyed before the timer fired. -/
theorem C3_theorem :
    (∀ (st : State1) (gid : String), lookup st.games gid = none →
      resetFire1 st gid = (st, []))
    ∧ (∀ (st : State1) (gid : String) (game : Game1), lookup st.games gid = some game →
      (lookup (resetFire1 st gid).1.games gid).map
          (fun g => (g.board, g.currentPlayer, g.players, g.status))
        = some (emptyBoard, Symb.X, game.players, game.status))
    ∧ (∀ (st : State2) (rid : String), lookup st.rooms rid = none →
      resetFire2 st rid = (st, []))
    ∧ (∀ (st : State2) (rid : String) (room : Room), lookup st.rooms rid = some room →
      (lookup (resetFire2 st rid).1.rooms rid).map
          (fun r => (r.board, r.currentPlayer, r.players, r.status))
        = some (emptyBoard, Symb.X, room.players, Status.playing)) := by
  refine ⟨fun st gid h => resetFire1_none h, fun st gid game h => ?_,
          fun st rid h => resetFire2_none h, fun st rid room h => ?_⟩
  · rw [resetFire1_some h]
    simp only [lookup_setKey_self]
    rfl
  · rw [resetFire2_some h]
    simp only [lookup_setKey_self]
    rfl

/-- Witness for C3: the reset timer firing for a destroyed session is a
strict no-op. -/
theorem C3_witness : resetFire2 init2 "morpion-lobby" = (init2, []) :=
  C3_theorem.2.2.1 init2 "morpion-lobby" (by decide)

/-- Counterexample refuting C3 as stated: two players join the lobby
room, X wins (status `finished`, reset scheduled), then X's connection
disconnects during the 3-unit delay, demoting the session to `waiting`
with one occupant; when the timer then fires, the session transitions
to `playing` although only one seat remains — it does not stay
`waiting` after an occupant left. -/
theorem C3_counterexample :
    (let st0 := (joinRoom init2 "a" "morpion" "Alice" "morpion-lobby").1
     let st1 := (joinRoom st0 "b" "morpion" "Bob" "morpion-lobby").1
     let st2 := (gameMove st1 "a" 0 "morpion-lobby").1
     let st3 := (gameMove st2 "b" 3 "morpion-lobby").1
     let st4 := (gameMove st3 "a" 1 "morpion-lobby").1
     let st5 := (gameMove st4 "b" 4 "morpion-lobby").1
     let st6 := (gameMove st5 "a" 2 "morpion-lobby").1
     let st7 := (disconnect2 st6 "a").1
     (lookup st6.rooms "morpion-lobby").map (·.status) = some Status.finished
     ∧ (lookup st7.rooms "morpion-lobby").map
         (fun r => (r.status, r.players.length)) = some (Status.waiting, 1)
     ∧ (lookup (resetFire2 st7 "morpion-lobby").1.rooms "morpion-lobby").map
         (fun r => (r.status, r.players.length, r.board, r.currentPlayer))
       = some (Status.playing, 1, emptyBoard, Symb.X)) := by
  decide


theorem joinRoom_duplicate {st : State2} {sid k : String} {g n : String} {room : Room}
    {q : Player2} (hfound : lookup st.rooms k = some room)
    (hlen : room.players.length < 2)
    (hmem : room.players.find? (fun p => p.id == sid) = some q) :
    joinRoom st sid g n k = (st, [Ev2.roomJoined sid k]) := by
  unfold joinRoom
  rw [hfound]
  simp only [Option.getD_some, Option.isSome_some, if_true]
  rw [if_pos hlen, hmem]

theorem pairwise_ids_push {pl : List Player2} {q : Player2}
    (hpl : pl.Pairwise (fun a b => a.id ≠ b.id))
    (hq : pl.find? (fun p => p.id == q.id) = none) :
    (pl ++ [q]).Pairwise (fun a b => a.id ≠ b.id) := by
  rw [List.pairwise_append]
  refine ⟨hpl, List.pairwise_singleton _ _, fun a ha b hb => ?_⟩
  rw [List.mem_singleton] at hb
  subst hb
  have := List.find?_eq_none.mp hq a ha
  simpa using this

theorem roomIdsOk_joinRoom {st : State2} (h : roomIdsOk st) (sid g n k : String) :
    roomIdsOk (joinRoom st sid g n k).1 := by
  intro p hp
  unfold joinRoom at hp
  cases hfound : lookup st.rooms k with
  | some room =>
    rw [hfound] at hp
    simp only [Option.getD_some, Option.isSome_some, if_true] at hp
    have hroom : room.players.Pairwise (fun a b => a.id ≠ b.id) :=
      h (k, room) (lookup_mem hfound)
    by_cases hlen : room.players.length < 2
    · rw [if_pos hlen] at hp
      cases hfind : room.players.find? (fun q => q.id == sid) with
      | some q =>
        rw [hfind] at hp
        exact h p hp
      | none =>
        rw [hfind] at hp
        by_cases h2 : (room.players ++
            [({ id := sid, name := n,
                symbol := if room.players.length = 0 then Symb.X else Symb.O } : Player2)]).length = 2
        · rw [if_pos h2] at hp
          dsimp only at hp
          rcases mem_setKey hp with h1 | h1
          · exact h p h1
          · subst h1
            exact pairwise_ids_push hroom hfind
        · rw [if_neg h2] at hp
          dsimp only at hp
          rcases mem_setKey hp with h1 | h1
          · exact h p h1
          · subst h1
            exact pairwise_ids_push hroom hfind
    · rw [if_neg hlen] at hp
      exact h p hp
  | none =>
    rw [hfound] at hp
    simp only [Option.getD_none, Option.isSome_none] at hp
    simp at hp
    rcases mem_setKey hp with h1 | h1
    · rcases mem_setKey h1 with h3 | h3
      · exact h p h3
      · subst h3
        exact List.Pairwise.nil
    · subst h1
      exact List.pairwise_singleton _ _


theorem applyMove1_state {st : State1} {gid : String} {game : Game1} {psym : Symb} {i : Nat} :
    (applyMove1 st gid game psym i).1
      = { st with games := setKey st.games gid { game with board := game.board.set i (some psym), currentPlayer := flipSymb game.currentPlayer } } := by
  by_cases h : ((checkWinner (game.board.set i (some psym))).isSome
      || ((checkWinner (game.board.set i (some psym))).isNone
           && boardFull (game.board.set i (some psym)))) = true
  · simp [applyMove1, h]
  · simp [applyMove1, h]

theorem applyMove2_rooms {st : State2} {rid : String} {room : Room} {cp : Player2} {mv : Nat} :
    (applyMove2 st rid room cp mv).1.rooms
      = setKey st.rooms rid { room with board := room.board.set mv (some cp.symbol), currentPlayer := flipSymb room.currentPlayer, status := if ((checkMorpionWinner (room.board.set mv (some cp.symbol))).isSome || boardFull (room.board.set mv (some cp.symbol))) then Status.finished else room.status } := by
  by_cases h : ((checkMorpionWinner (room.board.set mv (some cp.symbol))).isSome
      || boardFull (room.board.set mv (some cp.symbol))) = true
  · simp [applyMove2, h]
  · simp [applyMove2, h]

theorem register_rooms {st : State2} {u : String} : (register st u).1.rooms = st.rooms := by
  unfold register
  cases h : lookup st.users u <;> rfl

theorem roomAfterLeave_sublist {sid : String} {a p : String × Room}
    (h : roomAfterLeave sid a = some p) : p.2.players.Sublist a.2.players := by
  unfold roomAfterLeave at h
  cases hidx : a.2.players.findIdx? (fun q => q.id == sid) with
  | none =>
    rw [hidx] at h
    obtain rfl := Option.some.inj h
    exact List.Sublist.refl _
  | some i =>
    simp only [hidx] at h
    by_cases hlen : (a.2.players.eraseIdx i).length > 0
    · rw [if_pos hlen] at h
      obtain rfl := Option.some.inj h
      exact List.eraseIdx_sublist _ i
    · rw [if_neg hlen] at h
      exact Option.noConfusion h

theorem roomIdsOk_gameMove {st : State2} (h : roomIdsOk st) (sid : String) (mv : Nat)
    (rid : String) : roomIdsOk (gameMove st sid mv rid).1 := by
  intro p hp
  cases hg : lookup st.rooms rid with
  | none =>
    rw [gameMove_no_room hg] at hp
    exact h p hp
  | some room =>
    by_cases hr : room.players.length = 2 ∧ room.status = Status.playing
    · cases hfind : room.players.find? (fun q => q.id == sid) with
      | none =>
        rw [gameMove_not_seated hg hr hfind] at hp
        exact h p hp
      | some cp =>
        by_cases ht : cp.symbol = room.currentPlayer
        · by_cases hf : cellFree room.board mv
          · rw [gameMove_accept hg hr hfind ht hf] at hp
            rw [show (applyMove2 st rid room cp mv).1.rooms = _ from applyMove2_rooms] at hp
            rcases mem_setKey hp with h1 | h1
            · exact h p h1
            · subst h1
              exact h (rid, room) (lookup_mem hg)
          · rw [gameMove_occupied hg hr hfind ht hf] at hp
            exact h p hp
        · rw [gameMove_wrong_turn hg hr hfind ht] at hp
          exact h p hp
    · rw [gameMove_not_ready hg hr] at hp
      exact h p hp

theorem roomIdsOk_resetFire2 {st : State2} (h : roomIdsOk st) (rid : String) :
    roomIdsOk (resetFire2 st rid).1 := by
  intro p hp
  cases hg : lookup st.rooms rid with
  | none =>
    rw [resetFire2_none hg] at hp
    exact h p hp
  | some room =>
    rw [resetFire2_some hg] at hp
    rcases mem_setKey hp with h1 | h1
    · exact h p h1
    · subst h1
      exact h (rid, room) (lookup_mem hg)

theorem roomIdsOk_disconnect2 {st : State2} (h : roomIdsOk st) (sid : String) :
    roomIdsOk (disconnect2 st sid).1 := by
  intro p hp
  obtain ⟨a, ha, hfa⟩ := List.mem_filterMap.mp hp
  exact List.Pairwise.sublist (roomAfterLeave_sublist hfa) (h a ha)

theorem roomIdsOk_register {st : State2} (h : roomIdsOk st) (u : String) :
    roomIdsOk (register st u).1 := by
  intro p hp
  rw [register_rooms] at hp
  exact h p hp

theorem roomIdsOk_reachable {st : State2} (h : Reachable2 st) : roomIdsOk st := by
  induction h with
  | init =>
    intro p hp
    exact absurd hp (List.not_mem_nil p)
  | step _ hstep ih =>
    cases hstep with
    | join sid g n k => exact roomIdsOk_joinRoom ih sid g n k
    | move sid mv rid => exact roomIdsOk_gameMove ih sid mv rid
    | reset rid => exact roomIdsOk_resetFire2 ih rid
    | leave sid => exact roomIdsOk_disconnect2 ih sid
    | reg u => exact roomIdsOk_register ih u


/-- C4 (amended): in the rooms variant, in every reachable state the
occupants of any session have pairwise distinct connection
identifiers, and a connection that repeats `join-room` while already
seated is answered with `room-joined` and is not paired against its
own entry (the state is unchanged); the seats' symbols, however, are
not always distinct, and in the direct variant a repeated `join-game`
does pair the requester with its own parked entry (see the
counterexample). -/
theorem C4_theorem :
    (∀ st : State2, Reachable2 st →
      ∀ p ∈ st.rooms, p.2.players.Pairwise (fun a b => a.id ≠ b.id))
    ∧ (∀ (st : State2) (sid g n k : String) (room : Room) (q : Player2),
        lookup st.rooms k = some room → room.players.length < 2 →
        room.players.find? (fun p => p.id == sid) = some q →
        joinRoom st sid g n k = (st, [Ev2.roomJoined sid k])) :=
  ⟨fun _ h => roomIdsOk_reachable h,
   fun _ _ _ _ _ _ _ h1 h2 h3 => joinRoom_duplicate h1 h2 h3⟩

/-- Witness for C4: in the reachable state where Alice and Bob share
the lobby room, the two seats carry distinct connection ids. -/
theorem C4_witness :
    List.Pairwise (fun a b : Player2 => a.id ≠ b.id)
      (("morpion-lobby",
        ({ game := "morpion",
           players := [{ id := "a", name := "Alice", symbol := Symb.X },
                       { id := "b", name := "Bob", symbol := Symb.O }],
           status := Status.playing, board := emptyBoard,
           currentPlayer := Symb.X } : Room)) : String × Room).2.players :=
  C4_theorem.1
    (joinRoom (joinRoom init2 "a" "morpion" "Alice" "morpion-lobby").1
      "b" "morpion" "Bob" "morpion-lobby").1
    (Reachable2.step
      (Reachable2.step Reachable2.init (Step2.join init2 "a" "morpion" "Alice" "morpion-lobby"))
      (Step2.join _ "b" "morpion" "Bob" "morpion-lobby"))
    _ (by decide)

/-- Counterexample refuting C4 as stated: (i) in the direct variant a
connection sending `join-game` twice is paired against its own parked
entry — the waiting game it created is flipped to `playing` with the
single collapsed seat rewritten to symbol O; (ii) in the rooms variant,
after a disconnect vacates the X seat, a rejoning third connection is
given O like the remaining occupant, so the two occupied seats carry
the same symbol. -/
theorem C4_counterexample :
    ((lookup (joinGame (joinGame init1 "a" "Al" "g1").1 "a" "Al" "g2").1.games "g1").map
        (fun g => (g.status, g.players)) = some (Status.playing, [("a", Symb.O)]))
    ∧ ((lookup (joinRoom (disconnect2
          (joinRoom (joinRoom init2 "a" "morpion" "Alice" "morpion-lobby").1
            "b" "morpion" "Bob" "morpion-lobby").1 "a").1
          "c" "morpion" "Cloe" "morpion-lobby").1.rooms "morpion-lobby").map
        (fun r => (r.status, r.players.map (·.symbol)))
      = some (Status.playing, [Symb.O, Symb.O])) := by
  decide


theorem setKey_of_lookup_none {l : List (String × α)} {k : String} {v : α}
    (h : lookup l k = none) : setKey l k v = l ++ [(k, v)] := by
  unfold setKey
  have hf : l.find? (fun p => p.1 == k) = none := by
    unfold lookup at h
    exact Option.map_eq_none'.mp h
  rw [hf]
  simp

theorem makeMove_players_preserved (st : State1) (sid gid : String) (i : Nat) (kk : String) :
    ((lookup (makeMove st sid gid i).1.games kk).map (·.players))
      = (lookup st.games kk).map (·.players) := by
  cases hg : lookup st.games gid with
  | none => rw [makeMove_no_game hg]
  | some game =>
    cases hp : lookup game.players sid with
    | none => rw [makeMove_not_seated hg hp]
    | some psym =>
      by_cases ht : game.currentPlayer = psym
      · by_cases hf : cellFree game.board i
        · rw [makeMove_accept hg hp ht hf, applyMove1_state]
          by_cases hk : kk = gid
          · subst hk
            rw [show ({ st with games := setKey st.games kk { game with board := game.board.set i (some psym), currentPlayer := flipSymb game.currentPlayer } } : State1).games = setKey st.games kk { game with board := game.board.set i (some psym), currentPlayer := flipSymb game.currentPlayer } from rfl]
            rw [lookup_setKey_self, hg]
            rfl
          · rw [show ({ st with games := setKey st.games gid { game with board := game.board.set i (some psym), currentPlayer := flipSymb game.currentPlayer } } : State1).games = setKey st.games gid { game with board := game.board.set i (some psym), currentPlayer := flipSymb game.currentPlayer } from rfl]
            rw [lookup_setKey_ne _ _ _ hk]
        · rw [makeMove_occupied hg hp ht hf]
      · rw [makeMove_wrong_turn hg hp ht]

theorem gameMove_players_preserved (st : State2) (sid : String) (mv : Nat) (rid kk : String) :
    ((lookup (gameMove st sid mv rid).1.rooms kk).map (·.players))
      = (lookup st.rooms kk).map (·.players) := by
  cases hg : lookup st.rooms rid with
  | none => rw [gameMove_no_room hg]
  | some room =>
    by_cases hr : room.players.length = 2 ∧ room.status = Status.playing
    · cases hfind : room.players.find? (fun q => q.id == sid) with
      | none => rw [gameMove_not_seated hg hr hfind]
      | some cp =>
        by_cases ht : cp.symbol = room.currentPlayer
        · by_cases hf : cellFree room.board mv
          · rw [gameMove_accept hg hr hfind ht hf]
            rw [show (applyMove2 st rid room cp mv).1.rooms = _ from applyMove2_rooms]
            by_cases hk : kk = rid
            · subst hk
              rw [lookup_setKey_self, hg]
              rfl
            · rw [lookup_setKey_ne _ _ _ hk]
          · rw [gameMove_occupied hg hr hfind ht hf]
        · rw [gameMove_wrong_turn hg hr hfind ht]
    · rw [gameMove_not_ready hg hr]

theorem joinGame_creates {st : State1} {sid pname nid : String}
    (h : findAvailable st.games = none) :
    (lookup (joinGame st sid pname nid).1.games nid).map
        (fun g => (g.players, g.currentPlayer, g.status))
      = some ([(sid, Symb.X)], Symb.X, Status.waiting) := by
  simp only [joinGame, createNewGame]
  rw [h]
  rw [lookup_setKey_self]
  rfl

theorem joinGame_second {st : State1} {sid pname nid gid : String} {game : Game1}
    {other : String} {osym : Symb}
    (h : findAvailable st.games = some (gid, game))
    (hpl : game.players = [(other, osym)]) (hne : other ≠ sid) :
    (lookup (joinGame st sid pname nid).1.games gid).map
        (fun g => (g.players, g.currentPlayer, g.status))
      = some ([(other, osym), (sid, Symb.O)], game.currentPlayer, Status.playing) := by
  have hl : lookup game.players sid = none := by
    rw [hpl, lookup_cons, if_neg hne]
    rfl
  have hsk : setKey game.players sid Symb.O = [(other, osym), (sid, Symb.O)] := by
    rw [setKey_of_lookup_none hl, hpl]
    rfl
  simp only [joinGame, joinExistingGame]
  rw [h]
  rw [lookup_setKey_self]
  rw [hsk]
  rfl

theorem joinRoom_create {st : State2} {sid g n k : String}
    (h : lookup st.rooms k = none) :
    (lookup (joinRoom st sid g n k).1.rooms k).map
        (fun r => (r.players, r.status, r.currentPlayer))
      = some ([{ id := sid, name := n, symbol := Symb.X }], Status.waiting, Symb.X) := by
  unfold joinRoom
  rw [h]
  simp only [Option.getD_none, Option.isSome_none]
  simp
  rw [lookup_setKey_self]
  exact ⟨_, rfl, rfl, rfl, rfl⟩

theorem joinRoom_second {st : State2} {sid g n k : String} {room : Room}
    (h : lookup st.rooms k = some room) (hlen : room.players.length = 1)
    (hf : room.players.find? (fun q => q.id == sid) = none) :
    (lookup (joinRoom st sid g n k).1.rooms k).map (fun r => (r.players, r.status))
      = some (room.players ++ [{ id := sid, name := n, symbol := Symb.O }], Status.playing) := by
  unfold joinRoom
  rw [h]
  simp only [Option.getD_some, Option.isSome_some, if_true]
  rw [if_pos (show room.players.length < 2 by omega)]
  rw [hf]
  rw [if_neg (show ¬ room.players.length = 0 by omega)]
  rw [if_pos (show (room.players ++ [({ id := sid, name := n, symbol := Symb.O } : Player2)]).length = 2 by simp [hlen])]
  rw [lookup_setKey_self]
  rfl


/-- C5 (amended): a session's creator is seated with symbol X, is the
current-turn player, and the session waits; a second, distinct
connection joining is seated with symbol O while the first seat and the
current turn are untouched and play begins; move handling never changes
any seat assignment; but the assignment is not immutable under join
events: in the direct variant a duplicate `join-game` from the seated
creator itself rewrites that seat's symbol from X to O (see the
counterexample), and in the rooms variant the symbol is keyed to the
occupancy count at arrival rather than to arrival rank. -/
theorem C5_theorem :
    (∀ (st : State1) (sid pname nid : String), findAvailable st.games = none →
      (lookup (joinGame st sid pname nid).1.games nid).map
          (fun g => (g.players, g.currentPlayer, g.status))
        = some ([(sid, Symb.X)], Symb.X, Status.waiting))
    ∧ (∀ (st : State1) (sid pname nid gid : String) (game : Game1) (other : String)
        (osym : Symb), findAvailable st.games = some (gid, game) →
        game.players = [(other, osym)] → other ≠ sid →
        (lookup (joinGame st sid pname nid).1.games gid).map
            (fun g => (g.players, g.currentPlayer, g.status))
          = some ([(other, osym), (sid, Symb.O)], game.currentPlayer, Status.playing))
    ∧ (∀ (st : State2) (sid g n k : String), lookup st.rooms k = none →
        (lookup (joinRoom st sid g n k).1.rooms k).map
            (fun r => (r.players, r.status, r.currentPlayer))
          = some ([{ id := sid, name := n, symbol := Symb.X }], Status.waiting, Symb.X))
    ∧ (∀ (st : State2) (sid g n k : String) (room : Room),
        lookup st.rooms k = some room → room.players.length = 1 →
        room.players.find? (fun q => q.id == sid) = none →
        (lookup (joinRoom st sid g n k).1.rooms k).map (fun r => (r.players, r.status))
          = some (room.players ++ [{ id := sid, name := n, symbol := Symb.O }], Status.playing))
    ∧ (∀ (st : State1) (sid gid : String) (i : Nat) (kk : String),
        ((lookup (makeMove st sid gid i).1.games kk).map (·.players))
          = (lookup st.games kk).map (·.players))
    ∧ (∀ (st : State2) (sid : String) (mv : Nat) (rid kk : String),
        ((lookup (gameMove st sid mv rid).1.rooms kk).map (·.players))
          = (lookup st.rooms kk).map (·.players))
    ∧ ((lookup (joinGame (joinGame init1 "a" "Al" "g1").1 "b" "Bo" "g2").1.games "g1").map
          (fun g => (g.players, g.currentPlayer, g.status))
        = some ([("a", Symb.X), ("b", Symb.O)], Symb.X, Status.playing)) :=
  ⟨fun _ _ _ _ h => joinGame_creates h,
   fun _ _ _ _ _ _ _ _ h h1 h2 => joinGame_second h h1 h2,
   fun _ _ _ _ _ h => joinRoom_create h,
   fun _ _ _ _ _ _ h h1 h2 => joinRoom_second h h1 h2,
   makeMove_players_preserved, gameMove_players_preserved, by decide⟩

/-- Witness for C5: creating a fresh game seats the creator with X, on
turn, waiting. -/
theorem C5_witness :
    (lookup (joinGame init1 "a" "Al" "g9").1.games "g9").map
        (fun g => (g.players, g.currentPlayer, g.status))
      = some ([("a", Symb.X)], Symb.X, Status.waiting) :=
  C5_theorem.1 init1 "a" "Al" "g9" (by decide)

/-- Counterexample refuting C5 as stated: the creator of game "g1" is
first seated with symbol X, but its own duplicate `join-game` rewrites
the seat to symbol O — the symbol assignment is changed after arrival. -/
theorem C5_counterexample :
    ((lookup (joinGame init1 "a" "Al" "g1").1.games "g1").map (·.players)
        = some [("a", Symb.X)])
    ∧ ((lookup (joinGame (joinGame init1 "a" "Al" "g1").1 "a" "Al" "g2").1.games "g1").map
          (·.players)
        = some [("a", Symb.O)]) := by
  decide


theorem gameMove_users_no_winner {st : State2} {sid : String} {mv : Nat} {rid : String}
    {room : Room} {cp : Player2} (h1 : lookup st.rooms rid = some room)
    (h2 : room.players.length = 2 ∧ room.status = Status.playing)
    (h3 : room.players.find? (fun p => p.id == sid) = some cp)
    (h4 : cp.symbol = room.currentPlayer) (h5 : cellFree room.board mv)
    (hw : checkMorpionWinner (room.board.set mv (some cp.symbol)) = none) :
    (gameMove st sid mv rid).1.users = st.users
    ∧ ∀ e ∈ (gameMove st sid mv rid).2, isLBUpdate e = false := by
  rw [gameMove_accept h1 h2 h3 h4 h5]
  constructor
  · rw [applyMove2_users, hw, winnerStats_none]
  · intro e he
    rw [applyMove2_events, hw, winnerStats_none] at he
    by_cases hfull : boardFull (room.board.set mv (some cp.symbol)) = true
    · simp only [hfull, Option.isSome_none, Bool.false_or, if_true, List.nil_append] at he
      rcases List.mem_cons.mp he with rfl | he2
      · rfl
      · simp only [List.append_eq, List.nil_append, List.mem_singleton] at he2
        subst he2
        rfl
    · simp only [Bool.not_eq_true] at hfull
      simp only [hfull, Option.isSome_none, Bool.false_or, Bool.false_eq_true, if_false,
        List.nil_append, List.append_nil] at he
      rcases List.mem_cons.mp he with rfl | he2
      · rfl
      · exact absurd he2 (List.not_mem_nil e)

theorem gameMove_users_registered_winner {st : State2} {sid : String} {mv : Nat}
    {rid : String} {room : Room} {cp : Player2} {w : Symb} {wp : Player2} {s : Stats}
    (h1 : lookup st.rooms rid = some room)
    (h2 : room.players.length = 2 ∧ room.status = Status.playing)
    (h3 : room.players.find? (fun p => p.id == sid) = some cp)
    (h4 : cp.symbol = room.currentPlayer) (h5 : cellFree room.board mv)
    (hw : checkMorpionWinner (room.board.set mv (some cp.symbol)) = some w)
    (hwp : room.players.find? (fun p => p.symbol == w) = some wp)
    (hs : lookup st.users wp.name = some s) :
    (gameMove st sid mv rid).1.users
        = setKey st.users wp.name { s with wins := s.wins + 1, totalScore := s.totalScore + 10, totalGames := s.totalGames + 1 }
    ∧ Ev2.leaderboardUpdate (updateLeaderboard (setKey st.users wp.name { s with wins := s.wins + 1, totalScore := s.totalScore + 10, totalGames := s.totalGames + 1 }))
        ∈ (gameMove st sid mv rid).2 := by
  rw [gameMove_accept h1 h2 h3 h4 h5]
  constructor
  · rw [applyMove2_users, hw, winnerStats_registered hwp hs]
  · rw [applyMove2_events, hw, winnerStats_registered hwp hs]
    exact List.mem_cons_of_mem _ (List.mem_append_left _ (List.mem_singleton_self _))

theorem gameMove_users_unregistered_winner {st : State2} {sid : String} {mv : Nat}
    {rid : String} {room : Room} {cp : Player2} {w : Symb} {wp : Player2}
    (h1 : lookup st.rooms rid = some room)
    (h2 : room.players.length = 2 ∧ room.status = Status.playing)
    (h3 : room.players.find? (fun p => p.id == sid) = some cp)
    (h4 : cp.symbol = room.currentPlayer) (h5 : cellFree room.board mv)
    (hw : checkMorpionWinner (room.board.set mv (some cp.symbol)) = some w)
    (hwp : room.players.find? (fun p => p.symbol == w) = some wp)
    (hs : lookup st.users wp.name = none) :
    (gameMove st sid mv rid).1.users = st.users
    ∧ ∀ e ∈ (gameMove st sid mv rid).2, isLBUpdate e = false := by
  rw [gameMove_accept h1 h2 h3 h4 h5]
  constructor
  · rw [applyMove2_users, hw, winnerStats_unregistered hwp hs]
  · intro e he
    rw [applyMove2_events, hw, winnerStats_unregistered hwp hs] at he
    simp only [Option.isSome_some, Bool.true_or, if_true, List.nil_append] at he
    rcases List.mem_cons.mp he with rfl | he2
    · rfl
    · simp only [List.append_eq, List.nil_append, List.mem_singleton] at he2
      subst he2
      rfl


/-- C7 (amended): when an accepted `game-move` concludes the session
with a winner whose display name is a registered user, exactly one
Player Record update occurs: the winner's record gets wins + 1, total
score + 10 and games played + 1, every other display name's record is
untouched, and the recomputed leaderboard is broadcast; a session
concluding without a winner (in particular a draw) performs no Player
Record update and publishes no leaderboard (a winner whose name is not
registered also performs none, see C10). -/
theorem C7_theorem :
    (∀ (st : State2) (sid : String) (mv : Nat) (rid : String) (room : Room) (cp : Player2),
      lookup st.rooms rid = some room →
      room.players.length = 2 ∧ room.status = Status.playing →
      room.players.find? (fun p => p.id == sid) = some cp →
      cp.symbol = room.currentPlayer → cellFree room.board mv →
      checkMorpionWinner (room.board.set mv (some cp.symbol)) = none →
      (gameMove st sid mv rid).1.users = st.users
      ∧ ∀ e ∈ (gameMove st sid mv rid).2, isLBUpdate e = false)
    ∧ (∀ (st : State2) (sid : String) (mv : Nat) (rid : String) (room : Room) (cp : Player2)
        (w : Symb) (wp : Player2) (s : Stats),
      lookup st.rooms rid = some room →
      room.players.length = 2 ∧ room.status = Status.playing →
      room.players.find? (fun p => p.id == sid) = some cp →
      cp.symbol = room.currentPlayer → cellFree room.board mv →
      checkMorpionWinner (room.board.set mv (some cp.symbol)) = some w →
      room.players.find? (fun p => p.symbol == w) = some wp →
      lookup st.users wp.name = some s →
      (gameMove st sid mv rid).1.users
          = setKey st.users wp.name { s with wins := s.wins + 1, totalScore := s.totalScore + 10, totalGames := s.totalGames + 1 }
      ∧ lookup (gameMove st sid mv rid).1.users wp.name
          = some { s with wins := s.wins + 1, totalScore := s.totalScore + 10, totalGames := s.totalGames + 1 }
      ∧ (∀ nm, nm ≠ wp.name →
          lookup (gameMove st sid mv rid).1.users nm = lookup st.users nm)
      ∧ Ev2.leaderboardUpdate (updateLeaderboard (setKey st.users wp.name
            { s with wins := s.wins + 1, totalScore := s.totalScore + 10, totalGames := s.totalGames + 1 }))
          ∈ (gameMove st sid mv rid).2) := by
  refine ⟨fun st sid mv rid room cp h1 h2 h3 h4 h5 hw =>
    gameMove_users_no_winner h1 h2 h3 h4 h5 hw,
    fun st sid mv rid room cp w wp s h1 h2 h3 h4 h5 hw hwp hs => ?_⟩
  obtain ⟨hu, hmem⟩ := gameMove_users_registered_winner h1 h2 h3 h4 h5 hw hwp hs
  refine ⟨hu, ?_, fun nm hnm => ?_, hmem⟩
  · rw [hu, lookup_setKey_self]
  · rw [hu, lookup_setKey_ne _ _ _ hnm]

/-- Witness for C7: `admin` (registered) completes the first row; its
record becomes one game, one win, score 10, and only that record is
written. -/
theorem C7_witness :
    (gameMove (nearWinState "admin" "bob" [("admin", stats0)]) "a" 2 "r").1.users
      = setKey [("admin", stats0)] "admin"
          { totalGames := 1, wins := 1, totalScore := 10, level := 1 } :=
  (C7_theorem.2 (nearWinState "admin" "bob" [("admin", stats0)]) "a" 2 "r"
    (nearWinRoom "admin" "bob")
    { id := "a", name := "admin", symbol := Symb.X } Symb.X
    { id := "a", name := "admin", symbol := Symb.X } stats0
    (by decide) (by decide) (by decide) (by decide) (by decide) (by decide)
    (by decide) (by decide)).1

/-- Counterexample refuting C7 as stated: Alice (not a registered user)
wins the session — the session concludes with a winner and transitions
to `finished` — yet no Player Record update occurs at all (the users
store is unchanged) and no leaderboard is published, instead of the
claimed exactly-one update for the winning display name. -/
theorem C7_counterexample :
    (gameMove (nearWinState "Alice" "Bob" [("admin", stats0)]) "a" 2 "r").1.users
        = [("admin", stats0)]
    ∧ checkMorpionWinner [some Symb.X, some Symb.X, some Symb.X, some Symb.O,
        some Symb.O, none, none, none, none] = some Symb.X
    ∧ ((gameMove (nearWinState "Alice" "Bob" [("admin", stats0)]) "a" 2 "r").2.all
        fun e => !(isLBUpdate e)) = true
    ∧ (lookup (gameMove (nearWinState "Alice" "Bob" [("admin", stats0)]) "a" 2 "r").1.rooms
        "r").map (·.status) = some Status.finished := by
  decide

/-- C10 (confirmed): if an accepted `game-move` concludes with a winner
whose display name is not a registered user, no Player Record is
created or modified (the users store is exactly unchanged) and no
leaderboard republish is triggered by that win. -/
theorem C10_theorem :
    ∀ (st : State2) (sid : String) (mv : Nat) (rid : String) (room : Room) (cp : Player2)
      (w : Symb) (wp : Player2),
      lookup st.rooms rid = some room →
      room.players.length = 2 ∧ room.status = Status.playing →
      room.players.find? (fun p => p.id == sid) = some cp →
      cp.symbol = room.currentPlayer → cellFree room.board mv →
      checkMorpionWinner (room.board.set mv (some cp.symbol)) = some w →
      room.players.find? (fun p => p.symbol == w) = some wp →
      lookup st.users wp.name = none →
      (gameMove st sid mv rid).1.users = st.users
      ∧ ∀ e ∈ (gameMove st sid mv rid).2, isLBUpdate e = false :=
  fun _ _ _ _ _ _ _ _ h1 h2 h3 h4 h5 hw hwp hs =>
    gameMove_users_unregistered_winner h1 h2 h3 h4 h5 hw hwp hs

/-- Witness for C10: Zoe (unregistered) wins in a deployment with an
empty users store; the store stays empty. -/
theorem C10_witness :
    (gameMove (nearWinState "Zoe" "Yan" []) "a" 2 "r").1.users = [] :=
  (C10_theorem (nearWinState "Zoe" "Yan" []) "a" 2 "r" (nearWinRoom "Zoe" "Yan")
    { id := "a", name := "Zoe", symbol := Symb.X } Symb.X
    { id := "a", name := "Zoe", symbol := Symb.X }
    (by decide) (by decide) (by decide) (by decide) (by decide) (by decide)
    (by decide) (by decide)).1


theorem lookup_eq_none_iff {l : List (String × α)} {k : String} :
    lookup l k = none ↔ l.find? (fun p => p.1 == k) = none := by
  simp [lookup]

theorem lookup_eq_none_of_not_mem_keys {l : List (String × α)} {k : String}
    (h : k ∉ l.map (·.1)) : lookup l k = none := by
  rw [lookup_eq_none_iff]
  refine List.find?_eq_none.mpr fun x hx hbeq => ?_
  rw [beq_iff_eq] at hbeq
  exact h (List.mem_map.mpr ⟨x, hx, hbeq⟩)

theorem filterMap_keys_mem {l : List (String × α)} {f : String × α → Option (String × α)}
    (hf : ∀ p q, f p = some q → q.1 = p.1) :
    ∀ q ∈ l.filterMap f, q.1 ∈ l.map (·.1) := by
  intro q hq
  obtain ⟨a, ha, hfa⟩ := List.mem_filterMap.mp hq
  exact List.mem_map.mpr ⟨a, ha, (hf a q hfa).symm ▸ rfl⟩

theorem lookup_filterMap_keep {l : List (String × α)} {k : String} {v : α}
    {f : String × α → Option (String × α)}
    (hf : ∀ p q, f p = some q → q.1 = p.1)
    (hnd : (l.map (·.1)).Nodup) (h : lookup l k = some v) :
    lookup (l.filterMap f) k = (f (k, v)).map (·.2) := by
  induction l with
  | nil => exact absurd h (by simp [lookup])
  | cons hd tl ih =>
    obtain ⟨k0, v0⟩ := hd
    rw [List.map_cons, List.nodup_cons] at hnd
    rw [lookup_cons] at h
    rw [List.filterMap_cons]
    by_cases hk : k0 = k
    · subst hk
      rw [if_pos rfl] at h
      obtain rfl := Option.some.inj h
      cases hfk : f (k0, v0) with
      | none =>
        simp only [hfk, Option.map_none']
        refine lookup_eq_none_of_not_mem_keys fun hmem => ?_
        obtain ⟨q, hq, hqk⟩ := List.mem_map.mp hmem
        exact hnd.1 (hqk ▸ filterMap_keys_mem hf q hq)
      | some q =>
        obtain ⟨qk, qv⟩ := q
        have hq : qk = k0 := hf _ _ hfk
        subst hq
        simp only [hfk]
        rw [lookup_cons, if_pos rfl]
        rfl
    · rw [if_neg hk] at h
      cases hfk : f (k0, v0) with
      | none =>
        simp only [hfk]
        exact ih hnd.2 h
      | some q =>
        obtain ⟨qk, qv⟩ := q
        have hq : qk = k0 := hf _ _ hfk
        subst hq
        simp only [hfk]
        rw [lookup_cons, if_neg hk]
        exact ih hnd.2 h


theorem roomAfterLeave_keyfix {sid : String} {p q : String × Room}
    (h : roomAfterLeave sid p = some q) : q.1 = p.1 := by
  unfold roomAfterLeave at h
  cases hidx : p.2.players.findIdx? (fun r => r.id == sid) with
  | none =>
    simp only [hidx] at h
    obtain rfl := Option.some.inj h
    rfl
  | some i =>
    simp only [hidx] at h
    by_cases hlen : (p.2.players.eraseIdx i).length > 0
    · rw [if_pos hlen] at h
      obtain rfl := Option.some.inj h
      rfl
    · rw [if_neg hlen] at h
      exact Option.noConfusion h

theorem roomAfterLeave_found {sid rid : String} {room : Room} {i : Nat}
    (hidx : room.players.findIdx? (fun q => q.id == sid) = some i)
    (hlen : (room.players.eraseIdx i).length > 0) :
    roomAfterLeave sid (rid, room)
      = some (rid, { room with players := room.players.eraseIdx i, board := emptyBoard, status := Status.waiting, currentPlayer := Symb.X }) := by
  unfold roomAfterLeave
  dsimp only
  simp only [hidx]
  rw [if_pos hlen]

theorem leaveEvent_found {sid rid : String} {room : Room} {i : Nat}
    (hidx : room.players.findIdx? (fun q => q.id == sid) = some i)
    (hlen : (room.players.eraseIdx i).length > 0) :
    leaveEvent sid (rid, room)
      = some (Ev2.playerLeft rid (((room.players.get? i).map (·.name)).getD "")
          (room.players.eraseIdx i)) := by
  unfold leaveEvent
  dsimp only
  simp only [hidx]
  rw [if_pos hlen]

theorem disconnect1_removes {st : State1} {sid gid : String}
    (h : ∀ g : Game1, (gid, g) ∈ st.games → (lookup g.players sid).isSome = true) :
    lookup (disconnect1 st sid).1.games gid = none := by
  rw [show (disconnect1 st sid).1.games
      = st.games.filter (fun p => (lookup p.2.players sid).isNone) from rfl]
  rw [lookup_eq_none_iff]
  refine List.find?_eq_none.mpr fun x hx hbeq => ?_
  rw [List.mem_filter] at hx
  rw [beq_iff_eq] at hbeq
  have hmem : (gid, x.2) ∈ st.games := by
    have hx1 := hx.1
    obtain ⟨x1, x2⟩ := x
    simp only at hbeq
    subst hbeq
    exact hx1
  have hsome := h x.2 hmem
  have hnone := hx.2
  cases hlk : lookup x.2.players sid with
  | none =>
    rw [hlk] at hsome
    simp at hsome
  | some w =>
    rw [hlk] at hnone
    simp at hnone

theorem disconnect1_notifies {st : State1} {sid gid : String} {game : Game1}
    {other : String} (h : lookup st.games gid = some game)
    (hsid : (lookup game.players sid).isSome = true)
    (hfind : (game.players.map (·.1)).find? (fun j => !(j == sid)) = some other) :
    Ev1.opponentLeft other ∈ (disconnect1 st sid).2 := by
  refine List.mem_filterMap.mpr ⟨(gid, game), lookup_mem h, ?_⟩
  dsimp only
  rw [if_pos hsid, hfind]
  rfl


theorem disconnect2_demotes {st : State2} {sid rid : String} {room : Room} {i : Nat}
    (hnd : (st.rooms.map (·.1)).Nodup)
    (h : lookup st.rooms rid = some room)
    (hidx : room.players.findIdx? (fun q => q.id == sid) = some i)
    (hlen : (room.players.eraseIdx i).length > 0) :
    lookup (disconnect2 st sid).1.rooms rid
      = some { room with players := room.players.eraseIdx i, board := emptyBoard, status := Status.waiting, currentPlayer := Symb.X }
    ∧ Ev2.playerLeft rid (((room.players.get? i).map (·.name)).getD "")
        (room.players.eraseIdx i) ∈ (disconnect2 st sid).2 := by
  constructor
  · rw [show (disconnect2 st sid).1.rooms = st.rooms.filterMap (roomAfterLeave sid) from rfl]
    rw [lookup_filterMap_keep (fun p q hq => roomAfterLeave_keyfix hq) hnd h]
    rw [roomAfterLeave_found hidx hlen]
    rfl
  · exact List.mem_filterMap.mpr ⟨(rid, room), lookup_mem h, leaveEvent_found hidx hlen⟩

/-- C8 (amended): when a connection holding a seat disconnects, in the
direct variant every session seating it is destroyed after the first
other occupant is notified with `opponent-left`, and a subsequent move
against the old session id yields the `error` signal (Partie
introuvable, i.e. SessionNotFound); in the rooms variant the remaining
occupant is notified with `player-left` and the session is demoted to
`waiting` with the board cleared, but a subsequent move by the
remaining occupant against the old session id is silently ignored — no
`NotReady` (nor any other) error signal is emitted. -/
theorem C8_theorem :
    (∀ (st : State1) (sid gid : String),
      (∀ g : Game1, (gid, g) ∈ st.games → (lookup g.players sid).isSome = true) →
      lookup (disconnect1 st sid).1.games gid = none)
    ∧ (∀ (st : State1) (sid gid : String) (game : Game1) (other : String),
      lookup st.games gid = some game → (lookup game.players sid).isSome = true →
      (game.players.map (·.1)).find? (fun j => !(j == sid)) = some other →
      Ev1.opponentLeft other ∈ (disconnect1 st sid).2)
    ∧ (∀ (st : State1) (sid gid : String) (i : Nat), lookup st.games gid = none →
      makeMove st sid gid i = (st, [Ev1.errorMsg sid "Partie introuvable"]))
    ∧ (∀ (st : State2) (sid rid : String) (room : Room) (i : Nat),
      (st.rooms.map (·.1)).Nodup → lookup st.rooms rid = some room →
      room.players.findIdx? (fun q => q.id == sid) = some i →
      (room.players.eraseIdx i).length > 0 →
      lookup (disconnect2 st sid).1.rooms rid
        = some { room with players := room.players.eraseIdx i, board := emptyBoard, status := Status.waiting, currentPlayer := Symb.X }
      ∧ Ev2.playerLeft rid (((room.players.get? i).map (·.name)).getD "")
          (room.players.eraseIdx i) ∈ (disconnect2 st sid).2)
    ∧ (∀ (st : State2) (sid : String) (mv : Nat) (rid : String) (room : Room),
      lookup st.rooms rid = some room → room.status ≠ Status.playing →
      gameMove st sid mv rid = (st, [])) :=
  ⟨fun _ _ _ h => disconnect1_removes h,
   fun _ _ _ _ _ h1 h2 h3 => disconnect1_notifies h1 h2 h3,
   fun _ _ _ _ h => makeMove_no_game h,
   fun _ _ _ _ _ hnd h h1 h2 => disconnect2_demotes hnd h h1 h2,
   fun _ _ _ _ _ h hst => gameMove_not_ready h (fun hc => hst hc.2)⟩

/-- Witness for C8: a move against a `waiting` (demoted or not yet
started) room is silently ignored. -/
theorem C8_witness :
    gameMove (joinRoom init2 "a" "morpion" "Alice" "morpion-lobby").1 "a" 0 "morpion-lobby"
      = ((joinRoom init2 "a" "morpion" "Alice" "morpion-lobby").1, []) :=
  C8_theorem.2.2.2.2 (joinRoom init2 "a" "morpion" "Alice" "morpion-lobby").1
    "a" 0 "morpion-lobby"
    { game := "morpion", players := [{ id := "a", name := "Alice", symbol := Symb.X }],
      status := Status.waiting, board := emptyBoard, currentPlayer := Symb.X }
    (by decide) (by decide)

/-- Counterexample refuting C8 as stated: Alice disconnects from the
playing lobby room; Bob is notified with `player-left` and the session
is demoted to `waiting`; but Bob's subsequent move against the old
session id yields no event at all — in particular no `NotReady` error
signal — instead of the claimed NotReady. -/
theorem C8_counterexample :
    (let st1 := (joinRoom (joinRoom init2 "a" "morpion" "Alice" "morpion-lobby").1
       "b" "morpion" "Bob" "morpion-lobby").1
     let d := disconnect2 st1 "a"
     d.2 = [Ev2.playerLeft "morpion-lobby" "Alice"
         [{ id := "b", name := "Bob", symbol := Symb.O }]]
     ∧ (lookup d.1.rooms "morpion-lobby").map (·.status) = some Status.waiting
     ∧ gameMove d.1 "b" 0 "morpion-lobby" = (d.1, [])) := by
  decide


theorem filter_orderedInsert_score (x : LBEntry) (l : List LBEntry) (c : Nat) :
    (List.orderedInsert lbGe x l).filter (fun e => e.score == c)
      = if x.score = c then x :: l.filter (fun e => e.score == c)
        else l.filter (fun e => e.score == c) := by
  induction l with
  | nil =>
    by_cases h : x.score = c
    · simp [List.orderedInsert, h]
    · simp [List.orderedInsert, h]
  | cons y ys ih =>
    by_cases hxy : lbGe x y
    · rw [show List.orderedInsert lbGe x (y :: ys) = x :: y :: ys from by
        simp [List.orderedInsert, hxy]]
      by_cases h : x.score = c
      · simp [List.filter_cons, h]
      · simp [List.filter_cons, h]
    · have hlt : x.score < y.score := Nat.lt_of_not_le hxy
      rw [show List.orderedInsert lbGe x (y :: ys) = y :: List.orderedInsert lbGe x ys from by
        simp [List.orderedInsert, hxy]]
      by_cases h : x.score = c
      · have hyc : ¬ (y.score = c) := by omega
        simp [List.filter_cons, hyc, h, ih]
      · simp [List.filter_cons, h, ih]

theorem filter_insertionSort_score (l : List LBEntry) (c : Nat) :
    (List.insertionSort lbGe l).filter (fun e => e.score == c)
      = l.filter (fun e => e.score == c) := by
  induction l with
  | nil => rfl
  | cons x xs ih =>
    rw [show List.insertionSort lbGe (x :: xs)
        = List.orderedInsert lbGe x (List.insertionSort lbGe xs) from rfl]
    rw [filter_orderedInsert_score]
    by_cases h : x.score = c
    · simp [List.filter_cons, h, ih]
    · simp [List.filter_cons, h, ih]

/-- C9 (confirmed): every published leaderboard is sorted in descending
order of total score; the stable sort preserves, for every score value,
the relative order of the projected user entries, which are produced in
map insertion order, i.e. registration order; the published list has
length at most 10; and a registration recomputes and broadcasts it to
all connections (`io.emit`), as does every win by a registered user. -/
theorem C9_theorem :
    (∀ users : List (String × Stats), List.Sorted lbGe (updateLeaderboard users))
    ∧ (∀ users : List (String × Stats), (updateLeaderboard users).length ≤ 10)
    ∧ (∀ (users : List (String × Stats)) (c : Nat),
        (List.insertionSort lbGe (users.map toLBEntry)).filter (fun e => e.score == c)
          = (users.map toLBEntry).filter (fun e => e.score == c))
    ∧ (∀ (st : State2) (u : String), lookup st.users u = none →
        (register st u).2
          = [Ev2.leaderboardUpdate (updateLeaderboard (setKey st.users u stats0))]) := by
  refine ⟨fun users => ?_, fun users => ?_,
    fun users c => filter_insertionSort_score _ _, fun st u h => ?_⟩
  · exact List.Pairwise.sublist (List.take_sublist _ _)
      (List.sorted_insertionSort lbGe _)
  · simp only [updateLeaderboard, List.length_take]
    exact min_le_left _ _
  · unfold register
    rw [h]

/-- Witness for C9: registering a fresh user broadcasts the recomputed
leaderboard. -/
theorem C9_witness :
    (register init2 "zoe").2
      = [Ev2.leaderboardUpdate (updateLeaderboard (setKey init2.users "zoe" stats0))] :=
  C9_theorem.2.2.2 init2 "zoe" (by decide)

end GameHub
